import Mathlib

/-!
# ExtVMFace: the host-side adapter between the EVM engine and the ledger

A shallow embedding of `src/ExtVMFace.cpp` (namespace `dev::eth`).

* 256-bit words (`u256`), addresses and bytes are only compared and copied by
  the functions embedded here, never added or multiplied, so they are carried
  as natural numbers.
* The refund counter `sub.refunds` is a signed counter (the source comments
  "Can go negative").  The header that declares its machine type and the types
  of the schedule constants is not part of the source file; the counter and the
  two constants added to it are carried as unbounded integers (`Int`).
* The ledger backend (`store`, `setStore`, `originalStorageValue`, `codeAt`,
  the nested `call` and `create`) is virtual in the source.  Storage is a
  function from slot index to value which `setStore` updates; the nested
  `call`/`create` are fields of the frame, each a function of its request.
* Memory reached through a raw pointer is a list of bytes; an access outside
  the list makes the operation return `none`.
* The reserved storage of a result is one piece of memory used both for
  `create_address` and for the byte container handed to the engine; it is
  carried as a value that is either an address or a container, so that
  constructing the container replaces the address.
-/

/-- A 256-bit word (`u256`, `evmc_bytes32` after `fromEvmC`). -/
abbrev u256 := Nat

/-- A 160-bit account address (`Address`, `evmc_address`). -/
abbrev Address := Nat

/-- One octet of code or data. -/
abbrev byte := Nat

/-- An owned byte sequence (`bytes`, `std::vector<byte>`). -/
abbrev bytes := List byte

/-- The status categories of a storage write (`evmc_storage_status`). -/
inductive evmc_storage_status where
  | EVMC_STORAGE_UNCHANGED
  | EVMC_STORAGE_MODIFIED
  | EVMC_STORAGE_MODIFIED_AGAIN
  | EVMC_STORAGE_ADDED
  | EVMC_STORAGE_DELETED
deriving DecidableEq, Repr

open evmc_storage_status

/-- The fields of the gas schedule that `set_storage` reads. -/
structure EVMSchedule where
  eip1283Mode : Bool
  sstoreRefundGas : Int
  sstoreRefundNonzeroGas : Int

/-- The part of the per-transaction substate touched here: the refund counter,
together with the list of adjustments applied to it, in program order
(`+= x` is recorded as `x`, `-= x` as `-x`). -/
structure SubState where
  refunds : Int
  adjustments : List Int

/-- The statement `sub.refunds += x`. -/
def SubState.addRefund (s : SubState) (x : Int) : SubState :=
  { refunds := s.refunds + x, adjustments := s.adjustments ++ [x] }

/-- The statement `sub.refunds -= x`. -/
def SubState.subRefund (s : SubState) (x : Int) : SubState :=
  { refunds := s.refunds - x, adjustments := s.adjustments ++ [-x] }

/-- The kinds of message the engine can send (`evmc_call_kind`). -/
inductive evmc_call_kind where
  | EVMC_CALL
  | EVMC_DELEGATECALL
  | EVMC_CALLCODE
  | EVMC_CREATE
  | EVMC_CREATE2
deriving DecidableEq, Repr

open evmc_call_kind

/-- The status code of an execution (`evmc_status_code`); zero is success. -/
abbrev evmc_status_code := Int

/-- The status `EVMC_SUCCESS`. -/
def EVMC_SUCCESS : evmc_status_code := 0

/-- The flag bit `EVMC_STATIC` of `evmc_message.flags`. -/
def EVMC_STATIC : Nat := 1

/-- The inbound message (`evmc_message`).  `flags` is an unsigned 32-bit word,
`gas` a signed 64-bit integer; `input` stands for the pair
`input_data`/`input_size`. -/
structure evmc_message where
  kind : evmc_call_kind
  flags : Nat
  depth : Int
  gas : Int
  destination : Address
  sender : Address
  input : bytes
  value : u256
  create2_salt : u256

/-- The two opcodes `create` chooses between. -/
inductive Instruction where
  | CREATE
  | CREATE2
deriving DecidableEq, Repr

/-- The request handed to the ledger's `call` (`CallParameters`; the `onOp`
hook, always left empty, is not carried). -/
structure CallParameters where
  senderAddress : Address
  codeAddress : Address
  receiveAddress : Address
  valueTransfer : u256
  apparentValue : u256
  gas : u256
  data : bytes
  staticCall : Bool
deriving DecidableEq, Repr

/-- The arguments handed to the ledger's `create`. -/
structure CreateParameters where
  value : u256
  gas : u256
  init : bytes
  opcode : Instruction
  salt : u256
deriving DecidableEq, Repr

/-- The output of a ledger operation (`owning_bytes_ref`, declared outside the
source file): a reference to a window of bytes together with the byte vector
that owns them.  `view` is the sequence of bytes the reference shows and
`m_bytes` the whole owned vector, of which the window is a part. -/
structure owning_bytes_ref where
  view : bytes
  m_bytes : bytes
deriving DecidableEq, Repr

namespace owning_bytes_ref

/-- The constructor `owning_bytes_ref(bytes&& _bytes, size_t _begin, size_t _size)`:
the vector is taken over and the reference shows `_size` bytes from `_begin`. -/
def ofBytes (_bytes : bytes) (_begin _size : Nat) : owning_bytes_ref :=
  { view := (_bytes.drop _begin).take _size, m_bytes := _bytes }

/-- The bytes readable through `data()`. -/
def data (r : owning_bytes_ref) : bytes := r.view

/-- The count returned by `size()`. -/
def size (r : owning_bytes_ref) : Nat := r.view.length

/-- The vector moved out by `takeBytes()`: the whole owned vector, not only the
window. -/
def takeBytes (r : owning_bytes_ref) : bytes := r.m_bytes

end owning_bytes_ref

/-- The ledger's answer to `call`. -/
structure CallResult where
  status : evmc_status_code
  output : owning_bytes_ref

/-- The ledger's answer to `create`. -/
structure CreateResult where
  status : evmc_status_code
  output : owning_bytes_ref
  address : Address

/-- The reserved storage of a result: the memory of `create_address` and the
padding after it, which `evmc_get_optional_storage` hands out.  It holds either
an address (all zero bytes after zero-initialisation) or the byte container
constructed in place over it. -/
inductive ReservedStorage where
  | address (a : Address)
  | container (v : bytes)
deriving DecidableEq, Repr

/-- The result handed back to the engine (`evmc_result`).  `output_data` is the
byte sequence readable through the output pointer (empty for the null pointer),
`release` tells whether a release hook is installed, and `reserved` is the
memory shared by `create_address` and the optional storage. -/
structure evmc_result where
  status_code : evmc_status_code
  gas_left : Int
  output_data : bytes
  output_size : Nat
  release : Bool
  reserved : ReservedStorage
deriving DecidableEq, Repr

/-- The field `create_address` as the engine can use it: the address held by
the reserved storage, and nothing when a byte container has been constructed
over those bytes. -/
def evmc_result.create_address (r : evmc_result) : Option Address :=
  match r.reserved with
  | ReservedStorage.address a => some a
  | ReservedStorage.container _ => none

/-- The byte container living in the optional storage of a result, if one has
been constructed there. -/
def evmc_result.optionalStorage (r : evmc_result) : Option bytes :=
  match r.reserved with
  | ReservedStorage.address _ => none
  | ReservedStorage.container v => some v

/-- The zero-initialised result `evmc_result evmcResult = {}`. -/
def evmc_result.zero : evmc_result :=
  { status_code := 0, gas_left := 0, output_data := [], output_size := 0,
    release := false, reserved := ReservedStorage.address 0 }

/-- The operation the translator asked of the ledger. -/
inductive LedgerRequest where
  | call (params : CallParameters)
  | create (params : CreateParameters)
deriving DecidableEq, Repr

/-- The conversion `u256 gas = _msg.gas` of a signed 64-bit integer to a 256-bit
word (a negative value wraps modulo `2^256`). -/
def u256_of_int64 (g : Int) : u256 := (g % 2 ^ 256).toNat

/-- The conversion `static_cast<int64_t>(gas)` of a 256-bit word to a signed
64-bit integer: the value itself when it is below `2^63`, and the low 64 bits
read in two's complement otherwise. -/
def int64_of_u256 (n : u256) : Int :=
  if n % 2 ^ 64 < 2 ^ 63 then ((n % 2 ^ 64 : Nat) : Int) else ((n % 2 ^ 64 : Nat) : Int) - 2 ^ 64

/-- The execution frame as seen by the callbacks embedded here: the frame's own
address, its substate, the schedule returned by `evmSchedule()`, and the
ledger behind the virtual accessors.  `setStoreCalls` lists the calls of
`setStore` made so far, in program order.  `ledgerCall` and `ledgerCreate` are
the virtual nested `call` and `create`; each returns its result together with
the value it leaves in the in/out gas argument. -/
structure ExtVMFace where
  myAddress : Address
  sub : SubState
  schedule : EVMSchedule
  storage : u256 → u256
  originalStorage : u256 → u256
  code : Address → bytes
  setStoreCalls : List (u256 × u256)
  ledgerCall : CallParameters → CallResult × u256
  ledgerCreate : CreateParameters → CreateResult × u256

namespace ExtVMFace

/-- The accessor `evmSchedule()`. -/
def evmSchedule (ext : ExtVMFace) : EVMSchedule := ext.schedule

/-- The ledger read `store(index)`. -/
def store (ext : ExtVMFace) (index : u256) : u256 := ext.storage index

/-- The ledger read `originalStorageValue(index)`: the value the slot held at
the start of the transaction. -/
def originalStorageValue (ext : ExtVMFace) (index : u256) : u256 :=
  ext.originalStorage index

/-- The ledger read `codeAt(addr)`. -/
def codeAt (ext : ExtVMFace) (addr : Address) : bytes := ext.code addr

/-- Modelled from the spec: the ledger write `setStore(index, value)` is virtual
and its body is not part of the source file; it is a ledger where `store` reads
back what `setStore` wrote, and every other slot keeps its value. -/
def setStore (ext : ExtVMFace) (index value : u256) : ExtVMFace :=
  { ext with
    storage := fun i => if i = index then value else ext.storage i
    setStoreCalls := ext.setStoreCalls ++ [(index, value)] }

/-- The callback `get_storage`; the address argument is only asserted. -/
def get_storage (ext : ExtVMFace) (_addr : Address) (_key : u256) : u256 :=
  ext.store _key

/-- The callback `set_storage` (source lines 43-90).  It returns the status and
the frame after the call.  The address argument is only asserted. -/
def set_storage (ext : ExtVMFace) (_addr : Address) (_key _value : u256) :
    evmc_storage_status × ExtVMFace :=
  let index := _key
  let newValue := _value
  let currentValue := ext.store index
  if newValue = currentValue then
    (EVMC_STORAGE_UNCHANGED, ext)
  else
    let schedule := ext.evmSchedule
    let originalValue := ext.originalStorageValue index
    let r : evmc_storage_status × SubState :=
      if originalValue = currentValue ∨ schedule.eip1283Mode = false then
        if currentValue = 0 then
          (EVMC_STORAGE_ADDED, ext.sub)
        else if newValue = 0 then
          (EVMC_STORAGE_DELETED, ext.sub.addRefund schedule.sstoreRefundGas)
        else
          (EVMC_STORAGE_MODIFIED, ext.sub)
      else
        let s0 := ext.sub
        let s1 :=
          if originalValue ≠ 0 then
            let sa := if currentValue = 0 then s0.subRefund schedule.sstoreRefundGas else s0
            if newValue = 0 then sa.addRefund schedule.sstoreRefundGas else sa
          else s0
        let s2 :=
          if originalValue = newValue then
            if originalValue = 0 then
              s1.addRefund (schedule.sstoreRefundGas + schedule.sstoreRefundNonzeroGas)
            else
              s1.addRefund schedule.sstoreRefundNonzeroGas
          else s1
        (EVMC_STORAGE_MODIFIED_AGAIN, s2)
    (r.1, ({ ext with sub := r.2 }).setStore index newValue)

/-- The refund delta of one `set_storage` call: the refund counter after the
call minus the refund counter before it. -/
def refundDelta (ext : ExtVMFace) (_addr : Address) (_key _value : u256) : Int :=
  (ext.set_storage _addr _key _value).2.sub.refunds - ext.sub.refunds

end ExtVMFace

/-- The loop of `std::copy_n(&src[first], count, dst + out)`: `count` bytes are
read from `src` starting at `first` and written to `dst` starting at `out`.  A
read past the end of `src` or a write past the end of `dst` yields `none`. -/
def copy_n (src : bytes) (first : Nat) : Nat → bytes → Nat → Option bytes
  | 0, dst, _ => some dst
  | count + 1, dst, out =>
    match src[first]? with
    | none => none
    | some b =>
      if out < dst.length then copy_n src (first + 1) count (dst.set out b) (out + 1)
      else none

namespace ExtVMFace

/-- The callback `copy_code` (source lines 107-121).  `_bufferData` is the
memory the buffer pointer addresses; the result is the returned count and that
memory after the call, or `none` if an access went out of bounds. -/
def copy_code (ext : ExtVMFace) (_addr : Address) (_codeOffset : Nat) (_bufferData : bytes)
    (_bufferSize : Nat) : Option (Nat × bytes) :=
  let addr := _addr
  let c := ext.codeAt addr
  if _codeOffset ≥ c.length then
    some (0, _bufferData)
  else
    let maxToCopy := c.length - _codeOffset
    let numToCopy := min maxToCopy _bufferSize
    match copy_n c _codeOffset numToCopy _bufferData 0 with
    | none => none
    | some buf => some (numToCopy, buf)

/-- The buffer handoff shared by `call` and `create` (source lines 183-197 and
231-245): the output view is set from `data()` and `size()`, the vector moved
out by `takeBytes()` is constructed in the reserved storage, over the bytes of
`create_address`, and the release hook is installed. -/
def handOff (evmcResult : evmc_result) (output : owning_bytes_ref) : evmc_result :=
  { evmcResult with
    output_data := output.data
    output_size := output.size
    reserved := ReservedStorage.container output.takeBytes
    release := true }

/-- The translator `create` (source lines 158-200): the request passed to the
ledger and the repackaged result. -/
def create (ext : ExtVMFace) (_msg : evmc_message) : LedgerRequest × evmc_result :=
  let gas := u256_of_int64 _msg.gas
  let value := _msg.value
  let init := _msg.input
  let salt := _msg.create2_salt
  let opcode := if _msg.kind = EVMC_CREATE then Instruction.CREATE else Instruction.CREATE2
  let request : CreateParameters :=
    { value := value, gas := gas, init := init, opcode := opcode, salt := salt }
  let result := (ext.ledgerCreate request).1
  let gas := (ext.ledgerCreate request).2
  let evmcResult : evmc_result :=
    { evmc_result.zero with status_code := result.status, gas_left := int64_of_u256 gas }
  if result.status = EVMC_SUCCESS then
    (LedgerRequest.create request,
      { evmcResult with reserved := ReservedStorage.address result.address })
  else
    (LedgerRequest.create request, handOff evmcResult result.output)

/-- The request that `call` builds for a call-like message (source lines
210-219). -/
def callParameters (ext : ExtVMFace) (_msg : evmc_message) : CallParameters :=
  let apparentValue := _msg.value
  let codeAddress := _msg.destination
  { gas := u256_of_int64 _msg.gas
    apparentValue := apparentValue
    valueTransfer := if _msg.kind = EVMC_DELEGATECALL then 0 else apparentValue
    senderAddress := _msg.sender
    codeAddress := codeAddress
    receiveAddress := if _msg.kind = EVMC_CALL then codeAddress else ext.myAddress
    data := _msg.input
    staticCall := decide (_msg.flags &&& EVMC_STATIC ≠ 0) }

/-- The translator `call` (source lines 202-247): the request passed to the
ledger and the repackaged result.  The gas assertion is not executed. -/
def call (ext : ExtVMFace) (_msg : evmc_message) : LedgerRequest × evmc_result :=
  if _msg.kind = EVMC_CREATE ∨ _msg.kind = EVMC_CREATE2 then
    ext.create _msg
  else
    let params := ext.callParameters _msg
    let result := (ext.ledgerCall params).1
    let gasAfter := (ext.ledgerCall params).2
    let evmcResult : evmc_result :=
      { evmc_result.zero with status_code := result.status, gas_left := int64_of_u256 gasAfter }
    (LedgerRequest.call params, handOff evmcResult result.output)

end ExtVMFace

open ExtVMFace

/-- A sample frame: every slot holds `cur`, held `orig` at the start of the
transaction, and the schedule has the given mode with refunds 15000 and 4800. -/
def sampleFrame (mode : Bool) (cur orig : u256) : ExtVMFace :=
  { myAddress := 1
    sub := { refunds := 0, adjustments := [] }
    schedule := { eip1283Mode := mode, sstoreRefundGas := 15000, sstoreRefundNonzeroGas := 4800 }
    storage := fun _ => cur
    originalStorage := fun _ => orig
    code := fun _ => []
    setStoreCalls := []
    ledgerCall := fun p => ({ status := 0, output := owning_bytes_ref.ofBytes [] 0 0 }, p.gas)
    ledgerCreate := fun p =>
      ({ status := 0, output := owning_bytes_ref.ofBytes [] 0 0, address := 0 }, p.gas) }

/-- The credit `set_storage` adds when a write that is not a first touch
restores the slot to its original value (source lines 78-84). -/
def restoreCredit (schedule : EVMSchedule) (originalValue : u256) : Int :=
  if originalValue = 0 then schedule.sstoreRefundGas + schedule.sstoreRefundNonzeroGas
  else schedule.sstoreRefundNonzeroGas

/-- A sample frame whose every account has the five-byte code 10, 20, 30, 40, 50
and whose own address is 77. -/
def sampleCodeFrame : ExtVMFace :=
  { sampleFrame true 0 0 with myAddress := 77, code := fun _ => [10, 20, 30, 40, 50] }

/-- A sample delegated call: value 9, destination 42, sender 77, static flag
set. -/
def sampleDelegateCall : evmc_message :=
  { kind := EVMC_DELEGATECALL, flags := 1, depth := 0, gas := 1000, destination := 42,
    sender := 77, input := [1, 2], value := 9, create2_salt := 0 }

/-- The sum of the refund deltas of a sequence of `set_storage` writes to one
slot, each write made on the frame left by the previous one. -/
def deltaSum (ext : ExtVMFace) (addr : Address) (key : u256) : List u256 → Int
  | [] => 0
  | v :: vs => ext.refundDelta addr key v + deltaSum (ext.set_storage addr key v).2 addr key vs

/-- The number of writes of a sequence that restore the slot to `original` from
a different value, `current` being the value before the first write. -/
def restoreCount (original : u256) : u256 → List u256 → Nat
  | _, [] => 0
  | current, v :: vs =>
    (if v = original ∧ current ≠ original then 1 else 0) + restoreCount original v vs

/-- The clearing refund outstanding for a slot: sstoreRefundGas while a slot
whose original value is non-zero holds zero. -/
def clearingRefund (schedule : EVMSchedule) (original current : u256) : Int :=
  if original ≠ 0 ∧ current = 0 then schedule.sstoreRefundGas else 0

/-- A sample CallCode message whose destination is the frame itself (address
77): value 9, no flags. -/
def sampleCallCodeSelf : evmc_message :=
  { kind := EVMC_CALLCODE, flags := 0, depth := 0, gas := 1000, destination := 77,
    sender := 77, input := [1, 2], value := 9, create2_salt := 0 }

/-- A sample plain Call message: destination 42, value 9, static flag set. -/
def sampleCall : evmc_message :=
  { kind := EVMC_CALL, flags := 1, depth := 0, gas := 1000, destination := 42,
    sender := 77, input := [1, 2], value := 9, create2_salt := 0 }

/-- The request that `create` builds (source lines 160-164 and 169). -/
def ExtVMFace.createParameters (_msg : evmc_message) : CreateParameters :=
  { value := _msg.value
    gas := u256_of_int64 _msg.gas
    init := _msg.input
    opcode := if _msg.kind = EVMC_CREATE then Instruction.CREATE else Instruction.CREATE2
    salt := _msg.create2_salt }

/-- The output of the sample call: the window 7, 8, 9 of the owned vector
0, 7, 8, 9, 0. -/
def sampleCallOutput : owning_bytes_ref := owning_bytes_ref.ofBytes [0, 7, 8, 9, 0] 1 3

/-- A sample frame at address 77 whose ledger answers every call with status 2
and output 7, 8, 9 (a window of a longer vector) after consuming 100 gas, every
CREATE with success, address 123 and output 5, and every CREATE2 with status 2
and output 7, 8, each create consuming 10 gas. -/
def sampleLedgerFrame : ExtVMFace :=
  { sampleCodeFrame with
    ledgerCall := fun p => ({ status := 2, output := sampleCallOutput }, p.gas - 100)
    ledgerCreate := fun p =>
      if p.opcode = Instruction.CREATE then
        ({ status := 0, output := owning_bytes_ref.ofBytes [5] 0 1, address := 123 },
          p.gas - 10)
      else
        ({ status := 2, output := owning_bytes_ref.ofBytes [7, 8] 0 2, address := 0 },
          p.gas - 10) }

/-- A sample frame whose ledger answers every create with status 2, output
7, 8 and `2^63` in the gas argument, one more than a signed 64-bit integer can
hold. -/
def sampleGasFrame : ExtVMFace :=
  { sampleCodeFrame with
    ledgerCreate := fun _ =>
      ({ status := 2, output := owning_bytes_ref.ofBytes [7, 8] 0 2, address := 0 },
        2 ^ 63) }

/-- A sample CREATE message: value 3, init code 1, 2, salt field 5. -/
def sampleCreate : evmc_message :=
  { kind := EVMC_CREATE, flags := 0, depth := 0, gas := 1000, destination := 0,
    sender := 77, input := [1, 2], value := 3, create2_salt := 5 }

/-- A sample CREATE2 message: value 3, init code 1, 2, salt 5. -/
def sampleCreate2 : evmc_message :=
  { kind := EVMC_CREATE2, flags := 0, depth := 0, gas := 1000, destination := 0,
    sender := 77, input := [1, 2], value := 3, create2_salt := 5 }

/-- The adjustments one `set_storage` call applies to the refund counter, in
program order: what the call appends to the list of adjustments. -/
def appliedAdjustments (ext : ExtVMFace) (addr : Address) (key value : u256) : List Int :=
  (ext.set_storage addr key value).2.sub.adjustments.drop ext.sub.adjustments.length

/-- The frame after a sequence of `set_storage` writes to one slot. -/
def writeAll (ext : ExtVMFace) (addr : Address) (key : u256) : List u256 → ExtVMFace
  | [] => ext
  | v :: vs => writeAll (ext.set_storage addr key v).2 addr key vs

/-- The path condition of source line 74: the write changes the slot, is not a
first touch, the original value is non-zero and the current value is zero, so
`sub.refunds -= schedule.sstoreRefundGas` is executed. -/
def takesBackClearingRefund (ext : ExtVMFace) (key newValue : u256) : Prop :=
  newValue ≠ ext.store key
    ∧ ¬ (ext.originalStorageValue key = ext.store key ∨ ext.evmSchedule.eip1283Mode = false)
    ∧ ext.originalStorageValue key ≠ 0
    ∧ ext.store key = 0

/-! ## The storage-write classifier -/

/-- C1: the status returned by `set_storage` is Unchanged if the new value equals
the current one; otherwise, on a first touch (original equals current, or
eip1283Mode off), Added when the current value is zero, Deleted when the current
value is non-zero and the new value is zero, Modified when both are non-zero;
otherwise ModifiedAgain.  ModifiedAgain is returned exactly when the new value
differs from the current one, the original differs from the current one and
eip1283Mode is on. -/
theorem set_storage_status (ext : ExtVMFace) (addr : Address) (key newValue : u256) :
    (ext.set_storage addr key newValue).1 =
        (if newValue = ext.store key then EVMC_STORAGE_UNCHANGED
         else if ext.originalStorageValue key = ext.store key
              ∨ ext.evmSchedule.eip1283Mode = false then
           (if ext.store key = 0 then EVMC_STORAGE_ADDED
            else if newValue = 0 then EVMC_STORAGE_DELETED
            else EVMC_STORAGE_MODIFIED)
         else EVMC_STORAGE_MODIFIED_AGAIN)
      ∧ ((ext.set_storage addr key newValue).1 = EVMC_STORAGE_MODIFIED_AGAIN ↔
          (newValue ≠ ext.store key ∧ ext.originalStorageValue key ≠ ext.store key
            ∧ ext.evmSchedule.eip1283Mode = true)) := by
  unfold ExtVMFace.set_storage
  cases h5 : ext.evmSchedule.eip1283Mode <;> simp only [] <;> split_ifs <;> simp_all

/-- C2: when the new value equals the current value, `set_storage` returns
Unchanged, the refund delta is zero and the refund counter after the call
equals the refund counter before it. -/
theorem set_storage_unchanged (ext : ExtVMFace) (addr : Address) (key newValue : u256)
    (h : newValue = ext.store key) :
    (ext.set_storage addr key newValue).1 = EVMC_STORAGE_UNCHANGED
      ∧ ext.refundDelta addr key newValue = 0
      ∧ (ext.set_storage addr key newValue).2.sub.refunds = ext.sub.refunds := by
  simp [ExtVMFace.refundDelta, ExtVMFace.set_storage, h]

/-- Witness for C2: metering on, original 3, current 5, new 5. -/
theorem set_storage_unchanged_witness :
    (5 : u256) = (sampleFrame true 5 3).store 7
      ∧ ((sampleFrame true 5 3).set_storage 1 7 5).1 = EVMC_STORAGE_UNCHANGED
      ∧ (sampleFrame true 5 3).refundDelta 1 7 5 = 0
      ∧ ((sampleFrame true 5 3).set_storage 1 7 5).2.sub.refunds
          = (sampleFrame true 5 3).sub.refunds :=
  ⟨by decide, set_storage_unchanged (sampleFrame true 5 3) 1 7 5 (by decide)⟩

/-- The refund delta of one write in closed form: nothing when the slot is
unchanged; the flat clearing refund on a first-touch deletion; otherwise the
undo/redo of the clearing refund (original non-zero) plus the restore credit
(new equals original). -/
theorem refundDelta_eq (ext : ExtVMFace) (addr : Address) (key newValue : u256) :
    ext.refundDelta addr key newValue =
      (if newValue = ext.store key then 0
       else if ext.originalStorageValue key = ext.store key
            ∨ ext.evmSchedule.eip1283Mode = false then
         (if ext.store key = 0 then 0
          else if newValue = 0 then ext.evmSchedule.sstoreRefundGas else 0)
       else
         (if ext.originalStorageValue key ≠ 0 then
            (if ext.store key = 0 then -ext.evmSchedule.sstoreRefundGas else 0)
              + (if newValue = 0 then ext.evmSchedule.sstoreRefundGas else 0)
          else 0)
         + (if ext.originalStorageValue key = newValue then
              restoreCredit ext.evmSchedule (ext.originalStorageValue key)
            else 0)) := by
  unfold ExtVMFace.refundDelta ExtVMFace.set_storage restoreCredit
  simp only []
  split_ifs <;>
    simp only [ExtVMFace.setStore, SubState.addRefund, SubState.subRefund] <;> ring

/-- The status of one write in closed form. -/
theorem set_storage_fst_eq (ext : ExtVMFace) (addr : Address) (key newValue : u256) :
    (ext.set_storage addr key newValue).1 =
      (if newValue = ext.store key then EVMC_STORAGE_UNCHANGED
       else if ext.originalStorageValue key = ext.store key
            ∨ ext.evmSchedule.eip1283Mode = false then
         (if ext.store key = 0 then EVMC_STORAGE_ADDED
          else if newValue = 0 then EVMC_STORAGE_DELETED
          else EVMC_STORAGE_MODIFIED)
       else EVMC_STORAGE_MODIFIED_AGAIN) := by
  unfold ExtVMFace.set_storage
  simp only []
  split_ifs <;> rfl

/-- C3: on a first-touch write (original equals current, or eip1283Mode off)
whose new value differs from the current one: if the current value is zero (so
the new value is non-zero) the status is Added and the refund delta is zero; if
the current value is non-zero and the new value is zero the status is Deleted
and the refund delta is exactly sstoreRefundGas. -/
theorem set_storage_first_touch (ext : ExtVMFace) (addr : Address) (key newValue : u256)
    (hfirst : ext.originalStorageValue key = ext.store key
      ∨ ext.evmSchedule.eip1283Mode = false)
    (hne : newValue ≠ ext.store key) :
    (ext.store key = 0 →
        newValue ≠ 0
        ∧ (ext.set_storage addr key newValue).1 = EVMC_STORAGE_ADDED
        ∧ ext.refundDelta addr key newValue = 0)
      ∧ (ext.store key ≠ 0 → newValue = 0 →
        (ext.set_storage addr key newValue).1 = EVMC_STORAGE_DELETED
        ∧ ext.refundDelta addr key newValue = ext.evmSchedule.sstoreRefundGas) := by
  rw [set_storage_fst_eq, refundDelta_eq]
  simp only [if_neg hne, if_pos hfirst]
  refine ⟨fun h0 => ?_, fun h0 hz => ?_⟩
  · exact ⟨fun hv => hne (by rw [hv, h0]), by simp [h0], by simp [h0]⟩
  · exact ⟨by simp [h0, hz], by simp [h0, hz]⟩

/-- Witness for C3: an Added write (metering on, slot untouched at 0, new 3) and
a Deleted write (metering off, current 5, original 9, new 0). -/
theorem set_storage_first_touch_witness :
    (((sampleFrame true 0 0).set_storage 1 7 3).1 = EVMC_STORAGE_ADDED
        ∧ (sampleFrame true 0 0).refundDelta 1 7 3 = 0)
      ∧ (((sampleFrame false 5 9).set_storage 1 7 0).1 = EVMC_STORAGE_DELETED
        ∧ (sampleFrame false 5 9).refundDelta 1 7 0 = 15000) :=
  ⟨((set_storage_first_touch (sampleFrame true 0 0) 1 7 3 (by decide) (by decide)).1
      (by decide)).2,
   (set_storage_first_touch (sampleFrame false 5 9) 1 7 0 (by decide) (by decide)).2
      (by decide) (by decide)⟩

/-- C4: on a write that is not a first touch (eip1283Mode on, original differs
from current, new differs from current) and that restores the slot (original
equals new): if the original is zero the refund delta is sstoreRefundGas +
sstoreRefundNonzeroGas; if the original is non-zero the delta is
sstoreRefundNonzeroGas when the current value is non-zero and
sstoreRefundNonzeroGas - sstoreRefundGas when it is zero.  In every case the
restore credit is the last adjustment the call applies to the counter. -/
theorem set_storage_restore (ext : ExtVMFace) (addr : Address) (key newValue : u256)
    (hmode : ext.evmSchedule.eip1283Mode = true)
    (hdirty : ext.originalStorageValue key ≠ ext.store key)
    (hne : newValue ≠ ext.store key)
    (hrestore : ext.originalStorageValue key = newValue) :
    (ext.originalStorageValue key = 0 →
        ext.refundDelta addr key newValue
          = ext.evmSchedule.sstoreRefundGas + ext.evmSchedule.sstoreRefundNonzeroGas)
      ∧ (ext.originalStorageValue key ≠ 0 → ext.store key ≠ 0 →
        ext.refundDelta addr key newValue = ext.evmSchedule.sstoreRefundNonzeroGas)
      ∧ (ext.originalStorageValue key ≠ 0 → ext.store key = 0 →
        ext.refundDelta addr key newValue
          = ext.evmSchedule.sstoreRefundNonzeroGas - ext.evmSchedule.sstoreRefundGas)
      ∧ (∃ earlier : List Int,
          (ext.set_storage addr key newValue).2.sub.adjustments
            = ext.sub.adjustments ++ earlier
                ++ [restoreCredit ext.evmSchedule (ext.originalStorageValue key)]) := by
  have hnf : ¬ (ext.originalStorageValue key = ext.store key
      ∨ ext.evmSchedule.eip1283Mode = false) := by
    rintro (h | h)
    · exact hdirty h
    · rw [hmode] at h; exact Bool.noConfusion h
  rw [refundDelta_eq]
  simp only [if_neg hne, if_neg hnf, if_pos hrestore]
  refine ⟨fun h0 => ?_, fun h0 hc => ?_, fun h0 hc => ?_, ?_⟩
  · simp [h0, restoreCredit]
  · have hv : newValue ≠ 0 := fun hv => h0 (by rw [hrestore, hv])
    simp [h0, hc, hv, restoreCredit]
  · have hv : newValue ≠ 0 := fun hv => h0 (by rw [hrestore, hv])
    simp [h0, hc, hv, restoreCredit]
    ring
  · unfold ExtVMFace.set_storage restoreCredit
    simp only [if_neg hne, if_neg hnf, if_pos hrestore]
    by_cases h0 : ext.originalStorageValue key = 0
    · exact ⟨[], by simp [h0, ExtVMFace.setStore, SubState.addRefund]⟩
    · have hv : newValue ≠ 0 := fun hv => h0 (by rw [hrestore, hv])
      by_cases hc : ext.store key = 0
      · exact ⟨[-ext.evmSchedule.sstoreRefundGas], by
          simp [h0, hc, hv, ExtVMFace.setStore, SubState.addRefund, SubState.subRefund]⟩
      · exact ⟨[], by simp [h0, hc, hv, ExtVMFace.setStore, SubState.addRefund]⟩

/-- Witness for C4: metering on, original 0 and current 5 restored to 0, and
original 3 with current 0 restored to 3. -/
theorem set_storage_restore_witness :
    (sampleFrame true 5 0).refundDelta 1 7 0 = 15000 + 4800
      ∧ (sampleFrame true 0 3).refundDelta 1 7 3 = 4800 - 15000 :=
  ⟨(set_storage_restore (sampleFrame true 5 0) 1 7 0 rfl (by decide) (by decide)
      (by decide)).1 (by decide),
   (set_storage_restore (sampleFrame true 0 3) 1 7 3 rfl (by decide) (by decide)
      (by decide)).2.2.1 (by decide) (by decide)⟩

/-- A write leaves the schedule as it was. -/
theorem set_storage_schedule (ext : ExtVMFace) (addr : Address) (key newValue : u256) :
    (ext.set_storage addr key newValue).2.evmSchedule = ext.evmSchedule := by
  unfold ExtVMFace.set_storage
  simp only []
  split_ifs <;> rfl

/-- A write leaves the transaction-original values as they were. -/
theorem set_storage_original (ext : ExtVMFace) (addr : Address) (key newValue k : u256) :
    (ext.set_storage addr key newValue).2.originalStorageValue k
      = ext.originalStorageValue k := by
  unfold ExtVMFace.set_storage
  simp only []
  split_ifs <;> rfl

/-- After a write the slot holds the new value. -/
theorem set_storage_store_same (ext : ExtVMFace) (addr : Address) (key newValue : u256) :
    (ext.set_storage addr key newValue).2.store key = newValue := by
  unfold ExtVMFace.set_storage
  by_cases h : newValue = ext.store key
  · simp only [if_pos h]
    exact h.symm
  · simp only [if_neg h]
    simp [ExtVMFace.setStore, ExtVMFace.store]

/-- The case analysis behind `refundDelta_step`, over plain numbers. -/
theorem refund_step_arith (c o v : Nat) (R N : Int) :
    (if v = c then 0
     else if o = c then (if c = 0 then 0 else if v = 0 then R else 0)
     else
       (if o ≠ 0 then (if c = 0 then -R else 0) + (if v = 0 then R else 0) else 0)
       + (if o = v then (if o = 0 then R + N else N) else 0))
      = (if o ≠ 0 ∧ v = 0 then R else 0) - (if o ≠ 0 ∧ c = 0 then R else 0)
        + (if v = o ∧ c ≠ o then (if o = 0 then R + N else N) else 0) := by
  split_ifs <;> omega

/-- With metering on, the delta of one write is the change of the outstanding
clearing refund, plus the restore credit when the write restores the slot to
its original value from a different value. -/
theorem refundDelta_step (ext : ExtVMFace) (addr : Address) (key newValue : u256)
    (hmode : ext.evmSchedule.eip1283Mode = true) :
    ext.refundDelta addr key newValue =
      clearingRefund ext.evmSchedule (ext.originalStorageValue key) newValue
        - clearingRefund ext.evmSchedule (ext.originalStorageValue key) (ext.store key)
        + (if newValue = ext.originalStorageValue key
              ∧ ext.store key ≠ ext.originalStorageValue key then
            restoreCredit ext.evmSchedule (ext.originalStorageValue key) else 0) := by
  rw [refundDelta_eq]
  unfold clearingRefund restoreCredit
  have hm : (ext.evmSchedule.eip1283Mode = false) ↔ False := by simp [hmode]
  simp only [hm, or_false]
  exact refund_step_arith _ _ _ _ _

/-- With metering on, the deltas of a sequence of writes add up to the change of
the outstanding clearing refund between the first and the last value, plus one
restore credit for every write that restores the slot from a different value. -/
theorem deltaSum_eq (addr : Address) (key : u256) (vs : List u256) :
    ∀ ext : ExtVMFace, ext.evmSchedule.eip1283Mode = true →
      deltaSum ext addr key vs =
        clearingRefund ext.evmSchedule (ext.originalStorageValue key)
            (vs.getLastD (ext.store key))
          - clearingRefund ext.evmSchedule (ext.originalStorageValue key) (ext.store key)
          + (restoreCount (ext.originalStorageValue key) (ext.store key) vs : Int)
              * restoreCredit ext.evmSchedule (ext.originalStorageValue key) := by
  induction vs with
  | nil => intro ext _; simp [deltaSum, restoreCount]
  | cons v vs ih =>
    intro ext hmode
    have hmode2 : (ext.set_storage addr key v).2.evmSchedule.eip1283Mode = true := by
      rw [set_storage_schedule]; exact hmode
    have hlast : (v :: vs).getLastD (ext.store key) = vs.getLastD v := by
      cases vs <;> simp [List.getLastD]
    rw [deltaSum, ih _ hmode2, refundDelta_step ext addr key v hmode, set_storage_schedule,
      set_storage_original, set_storage_store_same, hlast, restoreCount]
    split_ifs <;> push_cast <;> ring

/-- C5 (as amended): with eip1283Mode on, for every original value o and every
finite sequence of writes to one slot whose current value starts at o, the sum
of the refund deltas equals the delta of the single write from o to the last
value, plus one restore credit for every write of the sequence that restores
the slot to o from a different value; so the two agree whenever no write of the
sequence is such a restore. -/
theorem write_sequence_refund (ext : ExtVMFace) (addr : Address) (key o : u256)
    (vs : List u256)
    (hmode : ext.evmSchedule.eip1283Mode = true)
    (hcur : ext.store key = o)
    (horig : ext.originalStorageValue key = o) :
    deltaSum ext addr key vs =
        ext.refundDelta addr key (vs.getLastD o)
          + (restoreCount o o vs : Int) * restoreCredit ext.evmSchedule o
      ∧ (restoreCount o o vs = 0 →
          deltaSum ext addr key vs = ext.refundDelta addr key (vs.getLastD o)) := by
  have h : deltaSum ext addr key vs =
      ext.refundDelta addr key (vs.getLastD o)
        + (restoreCount o o vs : Int) * restoreCredit ext.evmSchedule o := by
    rw [deltaSum_eq addr key vs ext hmode, refundDelta_step ext addr key _ hmode, horig, hcur]
    simp
  refine ⟨h, fun h0 => ?_⟩
  rw [h, h0]
  simp

/-- Witness for C5 (as amended): original 3, writes 0, 3, 0: one restore, and
the deltas add up to 15000 + 4800. -/
theorem write_sequence_refund_witness :
    deltaSum (sampleFrame true 3 3) 1 7 [0, 3, 0]
      = (sampleFrame true 3 3).refundDelta 1 7 0
        + (restoreCount 3 3 [0, 3, 0] : Int)
          * restoreCredit (sampleFrame true 3 3).evmSchedule 3 :=
  (write_sequence_refund (sampleFrame true 3 3) 1 7 3 [0, 3, 0] rfl rfl rfl).1

/-- Counterexample to C5 as stated: with metering on and original value 0, the
writes 5 then 0 have deltas 0 and 15000 + 4800, while the single write from 0
to the last value 0 has delta 0. -/
theorem write_sequence_refund_counterexample :
    (sampleFrame true 0 0).evmSchedule.eip1283Mode = true
      ∧ (sampleFrame true 0 0).store 7 = 0
      ∧ (sampleFrame true 0 0).originalStorageValue 7 = 0
      ∧ deltaSum (sampleFrame true 0 0) 1 7 [5, 0] = 19800
      ∧ (sampleFrame true 0 0).refundDelta 1 7 0 = 0
      ∧ deltaSum (sampleFrame true 0 0) 1 7 [5, 0]
          ≠ (sampleFrame true 0 0).refundDelta 1 7 0 := by
  decide

/-- C6: with eip1283Mode off, a non-zero current value and new value zero,
`set_storage` returns Deleted with refund delta exactly sstoreRefundGas, and the
status and the delta are the same whatever the original values are. -/
theorem set_storage_legacy_delete (ext : ExtVMFace) (addr : Address) (key : u256)
    (original : u256 → u256)
    (hmode : ext.evmSchedule.eip1283Mode = false)
    (hcur : ext.store key ≠ 0) :
    (ext.set_storage addr key 0).1 = EVMC_STORAGE_DELETED
      ∧ ext.refundDelta addr key 0 = ext.evmSchedule.sstoreRefundGas
      ∧ (({ ext with originalStorage := original }).set_storage addr key 0).1
          = (ext.set_storage addr key 0).1
      ∧ ({ ext with originalStorage := original }).refundDelta addr key 0
          = ext.refundDelta addr key 0 := by
  have hne : (0 : u256) ≠ ext.store key := fun h => hcur h.symm
  have key1 : ∀ e : ExtVMFace, e.evmSchedule.eip1283Mode = false → e.store key = ext.store key →
      (e.set_storage addr key 0).1 = EVMC_STORAGE_DELETED
        ∧ e.refundDelta addr key 0 = e.evmSchedule.sstoreRefundGas := by
    intro e hm hs
    have hne2 : (0 : u256) ≠ e.store key := by rw [hs]; exact hne
    have hc2 : e.store key ≠ 0 := by rw [hs]; exact hcur
    rw [set_storage_fst_eq, refundDelta_eq]
    simp only [if_neg hne2, hm, or_true, if_true, if_neg hc2]
    exact ⟨trivial, trivial⟩
  obtain ⟨h1, h2⟩ := key1 ext hmode rfl
  obtain ⟨h3, h4⟩ := key1 { ext with originalStorage := original } hmode rfl
  exact ⟨h1, h2, h3.trans h1.symm, h4.trans h2.symm⟩

/-- Witness for C6: metering off, current 5, new 0, original 9 against
original 5. -/
theorem set_storage_legacy_delete_witness :
    ((sampleFrame false 5 9).set_storage 1 7 0).1 = EVMC_STORAGE_DELETED
      ∧ (sampleFrame false 5 9).refundDelta 1 7 0 = 15000
      ∧ (({ sampleFrame false 5 9 with originalStorage := fun _ => 5 }).set_storage 1 7 0).1
          = ((sampleFrame false 5 9).set_storage 1 7 0).1
      ∧ ({ sampleFrame false 5 9 with originalStorage := fun _ => 5 }).refundDelta 1 7 0
          = (sampleFrame false 5 9).refundDelta 1 7 0 :=
  set_storage_legacy_delete (sampleFrame false 5 9) 1 7 (fun _ => 5) rfl (by decide)

/-- C7: with eip1283Mode on, original value zero, a non-zero current value and
new value zero, `set_storage` returns ModifiedAgain and the refund delta is
exactly sstoreRefundGas + sstoreRefundNonzeroGas. -/
theorem set_storage_restore_to_zero (ext : ExtVMFace) (addr : Address) (key : u256)
    (hmode : ext.evmSchedule.eip1283Mode = true)
    (horig : ext.originalStorageValue key = 0)
    (hcur : ext.store key ≠ 0) :
    (ext.set_storage addr key 0).1 = EVMC_STORAGE_MODIFIED_AGAIN
      ∧ ext.refundDelta addr key 0
          = ext.evmSchedule.sstoreRefundGas + ext.evmSchedule.sstoreRefundNonzeroGas := by
  have hne : ¬ (0 : u256) = ext.store key := fun h => hcur h.symm
  rw [set_storage_fst_eq, refundDelta_eq]
  simp [hne, hmode, horig, restoreCredit]

/-- Witness for C7: metering on, original 0, current 5, new 0. -/
theorem set_storage_restore_to_zero_witness :
    ((sampleFrame true 5 0).set_storage 1 7 0).1 = EVMC_STORAGE_MODIFIED_AGAIN
      ∧ (sampleFrame true 5 0).refundDelta 1 7 0 = 15000 + 4800 :=
  set_storage_restore_to_zero (sampleFrame true 5 0) 1 7 rfl rfl (by decide)

/-! ## Copying code -/

/-- The copy loop, when it stays inside both sequences, overwrites `count` bytes
of the destination from position `out` with the bytes of the source from
position `first`, and leaves the rest of the destination as it was. -/
theorem copy_n_eq (src : bytes) : ∀ (count first : Nat) (dst : bytes) (out : Nat),
    first + count ≤ src.length → out + count ≤ dst.length →
    copy_n src first count dst out
      = some (dst.take out ++ (src.drop first).take count ++ dst.drop (out + count)) := by
  intro count
  induction count with
  | zero => intro first dst out _ _; simp [copy_n]
  | succ n ih =>
    intro first dst out h1 h2
    have hf : first < src.length := by omega
    have ho : out < dst.length := by omega
    rw [copy_n, List.getElem?_eq_getElem hf]
    simp only [if_pos ho]
    rw [ih (first + 1) (dst.set out src[first]) (out + 1) (by omega) (by simp; omega)]
    congr 1
    rw [List.set_eq_take_append_cons_drop]
    simp only [if_pos ho]
    rw [List.drop_eq_getElem_cons hf]
    have hA : (dst.take out).length = out := by simp; omega
    have e1 : List.take (out + 1) (List.take out dst ++ src[first] :: List.drop (out + 1) dst)
        = List.take out dst ++ [src[first]] := by
      rw [List.take_append_eq_append_take, hA]
      simp
    have e2 : List.drop (out + 1 + n) (List.take out dst ++ src[first] :: List.drop (out + 1) dst)
        = List.drop (out + (n + 1)) dst := by
      rw [List.drop_append_eq_append_drop, hA]
      have : out + 1 + n - out = n + 1 := by omega
      rw [this, List.drop_of_length_le (by rw [hA]; omega)]
      simp
      rw [Nat.add_assoc, Nat.add_comm 1 n]
    rw [e1, e2]
    simp only [List.take_succ_cons, List.append_assoc, List.singleton_append, List.cons_append,
      List.nil_append]

/-- The result of `copy_code` on a buffer of at least `bufferSize` bytes: the
count, and the buffer with its first `count` bytes replaced by the code bytes
from `offset` on. -/
theorem copy_code_eq (ext : ExtVMFace) (addr : Address) (offset : Nat) (buf : bytes)
    (bufferSize : Nat) (hbuf : bufferSize ≤ buf.length) :
    ext.copy_code addr offset buf bufferSize =
      some (if offset ≥ (ext.codeAt addr).length then 0
              else min ((ext.codeAt addr).length - offset) bufferSize,
            ((ext.codeAt addr).drop offset).take
                (if offset ≥ (ext.codeAt addr).length then 0
                  else min ((ext.codeAt addr).length - offset) bufferSize)
              ++ buf.drop
                (if offset ≥ (ext.codeAt addr).length then 0
                  else min ((ext.codeAt addr).length - offset) bufferSize)) := by
  unfold ExtVMFace.copy_code
  by_cases h : offset ≥ (ext.codeAt addr).length
  · simp [h]
  · simp only [if_neg h]
    rw [copy_n_eq (ext.codeAt addr) _ offset buf 0 (by omega) (by omega)]
    simp

/-- C8: on a buffer of at least `bufferSize` bytes, `copy_code` returns 0 when
the offset is at or past the code length, and min(length - offset, bufferSize)
otherwise; with offset 0 and a buffer smaller than the code it returns exactly
`bufferSize`. -/
theorem copy_code_count (ext : ExtVMFace) (addr : Address) (offset : Nat) (buf : bytes)
    (bufferSize : Nat) (hbuf : bufferSize ≤ buf.length) :
    (offset ≥ (ext.codeAt addr).length →
        (ext.copy_code addr offset buf bufferSize).map Prod.fst = some 0)
      ∧ (offset < (ext.codeAt addr).length →
        (ext.copy_code addr offset buf bufferSize).map Prod.fst
          = some (min ((ext.codeAt addr).length - offset) bufferSize))
      ∧ (offset = 0 → bufferSize < (ext.codeAt addr).length →
        (ext.copy_code addr offset buf bufferSize).map Prod.fst = some bufferSize) := by
  rw [copy_code_eq ext addr offset buf bufferSize hbuf]
  refine ⟨fun h => ?_, fun h => ?_, fun h0 h => ?_⟩
  · simp [h]
  · have h2 : ¬ offset ≥ (ext.codeAt addr).length := by omega
    simp [h2]
  · have h2 : ¬ offset ≥ (ext.codeAt addr).length := by omega
    simp only [if_neg h2, Option.map_some']
    congr 1
    omega

/-- Witness for C8: code of five bytes; offset 7 copies nothing, offset 3 into a
four-byte buffer copies two bytes, offset 0 into a two-byte buffer copies two. -/
theorem copy_code_count_witness :
    (sampleCodeFrame.copy_code 1 7 [0, 0] 2).map Prod.fst = some 0
      ∧ (sampleCodeFrame.copy_code 1 3 [0, 0, 0, 0] 4).map Prod.fst = some 2
      ∧ (sampleCodeFrame.copy_code 1 0 [0, 0] 2).map Prod.fst = some 2 :=
  ⟨(copy_code_count sampleCodeFrame 1 7 [0, 0] 2 (by decide)).1 (by decide),
   (copy_code_count sampleCodeFrame 1 3 [0, 0, 0, 0] 4 (by decide)).2.1 (by decide),
   (copy_code_count sampleCodeFrame 1 0 [0, 0] 2 (by decide)).2.2 rfl (by decide)⟩

/-- C9 (as amended): on a buffer of at least `bufferSize` bytes `copy_code`
returns a count n and the buffer such that the first n bytes of the buffer
equal the n code bytes from `offset` on (the leading bytes of the code when the
offset is 0), every byte of the buffer from position n on is unchanged, n is
at most `bufferSize`, and offset + n is at most the code length whenever the
offset itself is; when the offset is at or past the code length, n is 0 and
the buffer is untouched. -/
theorem copy_code_buffer (ext : ExtVMFace) (addr : Address) (offset : Nat) (buf : bytes)
    (bufferSize : Nat) (hbuf : bufferSize ≤ buf.length) :
    ∃ (n : Nat) (out : bytes),
      ext.copy_code addr offset buf bufferSize = some (n, out)
        ∧ out.take n = ((ext.codeAt addr).drop offset).take n
        ∧ (((ext.codeAt addr).drop offset).take n).length = n
        ∧ (offset = 0 → out.take n = (ext.codeAt addr).take n)
        ∧ out.drop n = buf.drop n
        ∧ out.length = buf.length
        ∧ n ≤ bufferSize
        ∧ (offset ≤ (ext.codeAt addr).length → offset + n ≤ (ext.codeAt addr).length)
        ∧ ((ext.codeAt addr).length ≤ offset → n = 0 ∧ out = buf) := by
  refine ⟨_, _, copy_code_eq ext addr offset buf bufferSize hbuf, ?_⟩
  by_cases h : offset ≥ (ext.codeAt addr).length
  · simp only [if_pos h]
    simp
  · simp only [if_neg h]
    have hlen : (((ext.codeAt addr).drop offset).take
        (min ((ext.codeAt addr).length - offset) bufferSize)).length
          = min ((ext.codeAt addr).length - offset) bufferSize := by
      simp
    refine ⟨?_, hlen, ?_, ?_, ?_, ?_, ?_, ?_⟩
    · exact List.take_left' hlen
    · intro h0
      rw [List.take_left' hlen, h0]
      rfl
    · exact List.drop_left' hlen
    · rw [List.length_append, hlen, List.length_drop]
      omega
    · omega
    · intro _; omega
    · intro h2; omega

/-- Witness for C9 (as amended): code 10, 20, 30, 40, 50, offset 3, a four-byte
buffer: two bytes are copied and the last two bytes of the buffer stay. -/
theorem copy_code_buffer_witness :
    ∃ (n : Nat) (out : bytes),
      sampleCodeFrame.copy_code 1 3 [1, 2, 3, 4] 4 = some (n, out)
        ∧ out.take n = ((sampleCodeFrame.codeAt 1).drop 3).take n
        ∧ (((sampleCodeFrame.codeAt 1).drop 3).take n).length = n
        ∧ (3 = 0 → out.take n = (sampleCodeFrame.codeAt 1).take n)
        ∧ out.drop n = ([1, 2, 3, 4] : bytes).drop n
        ∧ out.length = ([1, 2, 3, 4] : bytes).length
        ∧ n ≤ 4
        ∧ (3 ≤ (sampleCodeFrame.codeAt 1).length → 3 + n ≤ (sampleCodeFrame.codeAt 1).length)
        ∧ ((sampleCodeFrame.codeAt 1).length ≤ 3 → n = 0 ∧ out = [1, 2, 3, 4]) :=
  copy_code_buffer sampleCodeFrame 1 3 [1, 2, 3, 4] 4 (by decide)

/-- Counterexample to C9 as stated: with code of five bytes and offset 7 the
call returns n = 0 and leaves the buffer alone, yet offset + n = 7 exceeds the
code length 5. -/
theorem copy_code_buffer_counterexample :
    sampleCodeFrame.copy_code 1 7 [1, 2, 3, 4] 4 = some (0, [1, 2, 3, 4])
      ∧ (sampleCodeFrame.codeAt 1).length = 5
      ∧ ¬ (7 + 0 ≤ (sampleCodeFrame.codeAt 1).length) := by
  decide

/-! ## The call translator -/

/-- C10: for every message of kind DelegateCall the request passed to the ledger
is a call request with valueTransfer zero and receiveAddress the frame's own
address, while apparentValue is the message value and codeAddress the message
destination. -/
theorem call_delegatecall (ext : ExtVMFace) (msg : evmc_message)
    (hkind : msg.kind = EVMC_DELEGATECALL) :
    ∃ params : CallParameters,
      (ext.call msg).1 = LedgerRequest.call params
        ∧ params.valueTransfer = 0
        ∧ params.receiveAddress = ext.myAddress
        ∧ params.apparentValue = msg.value
        ∧ params.codeAddress = msg.destination := by
  refine ⟨ext.callParameters msg, ?_, ?_, ?_, ?_, ?_⟩
  · simp [ExtVMFace.call, hkind]
  · simp [ExtVMFace.callParameters, hkind]
  · simp [ExtVMFace.callParameters, hkind]
  · rfl
  · rfl

/-- Witness for C10: a delegated call with value 9 and destination 42 made by
the frame at address 77. -/
theorem call_delegatecall_witness :
    ∃ params : CallParameters,
      (sampleCodeFrame.call sampleDelegateCall).1 = LedgerRequest.call params
        ∧ params.valueTransfer = 0
        ∧ params.receiveAddress = 77
        ∧ params.apparentValue = 9
        ∧ params.codeAddress = 42 :=
  call_delegatecall sampleCodeFrame sampleDelegateCall rfl

/-- A gas value in the range of a signed 64-bit integer and not negative is
carried unchanged into a 256-bit word. -/
theorem u256_of_int64_of_nonneg (g : Int) (h0 : 0 ≤ g) (h1 : g < 2 ^ 63) :
    ((u256_of_int64 g : Nat) : Int) = g := by
  unfold u256_of_int64
  have h2 : g % 2 ^ 256 = g := Int.emod_eq_of_lt h0 (by omega)
  rw [h2, Int.toNat_of_nonneg h0]

/-- A message that is not a create is answered through the call path. -/
theorem call_of_not_create (ext : ExtVMFace) (msg : evmc_message)
    (h1 : msg.kind ≠ EVMC_CREATE) (h2 : msg.kind ≠ EVMC_CREATE2) :
    ext.call msg =
      (LedgerRequest.call (ext.callParameters msg),
        handOff
          { evmc_result.zero with
            status_code := (ext.ledgerCall (ext.callParameters msg)).1.status,
            gas_left := int64_of_u256 (ext.ledgerCall (ext.callParameters msg)).2 }
          (ext.ledgerCall (ext.callParameters msg)).1.output) := by
  unfold ExtVMFace.call
  have h : ¬ (msg.kind = EVMC_CREATE ∨ msg.kind = EVMC_CREATE2) := by
    rintro (h | h)
    · exact h1 h
    · exact h2 h
  simp only [if_neg h]

/-- C11 (as amended): for every non-create message with gas not negative (and
in the signed 64-bit range), the request built by `call` has gas equal to the
message gas, valueTransfer equal to the message value unless the kind is
DelegateCall, senderAddress the message sender, codeAddress the message
destination, receiveAddress the message destination when the kind is plain Call
and myAddress otherwise (so it equals the destination exactly when the kind is
Call or the destination is the frame itself), data the message input, and
staticCall true exactly when the static bit is set in the flags. -/
theorem call_request (ext : ExtVMFace) (msg : evmc_message)
    (h1 : msg.kind ≠ EVMC_CREATE) (h2 : msg.kind ≠ EVMC_CREATE2)
    (hgas : 0 ≤ msg.gas) (hrange : msg.gas < 2 ^ 63) :
    ∃ params : CallParameters,
      (ext.call msg).1 = LedgerRequest.call params
        ∧ ((params.gas : Nat) : Int) = msg.gas
        ∧ (msg.kind ≠ EVMC_DELEGATECALL → params.valueTransfer = msg.value)
        ∧ params.senderAddress = msg.sender
        ∧ params.codeAddress = msg.destination
        ∧ (msg.kind = EVMC_CALL → params.receiveAddress = msg.destination)
        ∧ (msg.kind ≠ EVMC_CALL → params.receiveAddress = ext.myAddress)
        ∧ (params.receiveAddress = msg.destination ↔
            (msg.kind = EVMC_CALL ∨ msg.destination = ext.myAddress))
        ∧ params.data = msg.input
        ∧ (params.staticCall = true ↔ msg.flags &&& EVMC_STATIC ≠ 0) := by
  refine ⟨ext.callParameters msg, ?_, ?_, ?_, rfl, rfl, ?_, ?_, ?_, rfl, ?_⟩
  · rw [call_of_not_create ext msg h1 h2]
  · exact u256_of_int64_of_nonneg msg.gas hgas hrange
  · intro h; simp [ExtVMFace.callParameters, h]
  · intro h; simp [ExtVMFace.callParameters, h]
  · intro h; simp [ExtVMFace.callParameters, h]
  · by_cases h : msg.kind = EVMC_CALL
    · simp [ExtVMFace.callParameters, h]
    · simp only [ExtVMFace.callParameters, if_neg h, h, false_or]
      exact eq_comm
  · simp [ExtVMFace.callParameters]

/-- Witness for C11 (as amended): a plain Call to address 42 with the static
flag set, made by the frame at address 77. -/
theorem call_request_witness :
    ∃ params : CallParameters,
      (sampleCodeFrame.call sampleCall).1 = LedgerRequest.call params
        ∧ ((params.gas : Nat) : Int) = 1000
        ∧ (sampleCall.kind ≠ EVMC_DELEGATECALL → params.valueTransfer = 9)
        ∧ params.senderAddress = 77
        ∧ params.codeAddress = 42
        ∧ (sampleCall.kind = EVMC_CALL → params.receiveAddress = 42)
        ∧ (sampleCall.kind ≠ EVMC_CALL → params.receiveAddress = 77)
        ∧ (params.receiveAddress = 42 ↔
            (sampleCall.kind = EVMC_CALL ∨ (42 : Address) = 77))
        ∧ params.data = [1, 2]
        ∧ (params.staticCall = true ↔ sampleCall.flags &&& EVMC_STATIC ≠ 0) :=
  call_request sampleCodeFrame sampleCall (by decide) (by decide) (by decide) (by decide)

/-- Counterexample to C11 as stated: a CallCode message (not a plain Call) whose
destination is the frame's own address 77 is given receiveAddress 77, which is
the message destination. -/
theorem call_request_counterexample :
    sampleCallCodeSelf.kind ≠ EVMC_CREATE ∧ sampleCallCodeSelf.kind ≠ EVMC_CREATE2
      ∧ 0 ≤ sampleCallCodeSelf.gas
      ∧ (sampleCodeFrame.call sampleCallCodeSelf).1
          = LedgerRequest.call (sampleCodeFrame.callParameters sampleCallCodeSelf)
      ∧ (sampleCodeFrame.callParameters sampleCallCodeSelf).receiveAddress
          = sampleCallCodeSelf.destination
      ∧ sampleCallCodeSelf.kind ≠ EVMC_CALL
      ∧ ¬ ((sampleCodeFrame.callParameters sampleCallCodeSelf).receiveAddress
            = sampleCallCodeSelf.destination ↔ sampleCallCodeSelf.kind = EVMC_CALL) :=
  ⟨by decide, by decide, by decide,
   congrArg Prod.fst
     (call_of_not_create sampleCodeFrame sampleCallCodeSelf (by decide) (by decide)),
   by decide, by decide, by decide⟩

/-- A 256-bit word below `2^63` is carried unchanged into a signed 64-bit
integer. -/
theorem int64_of_u256_of_lt (n : Nat) (h : n < 2 ^ 63) : int64_of_u256 n = (n : Int) := by
  unfold int64_of_u256
  have h2 : n % 2 ^ 64 = n := Nat.mod_eq_of_lt (by omega)
  rw [h2, if_pos h]

/-- C12: for every non-create message and every answer of the ledger (any
status, any output, empty or not), the result of `call` has the ledger's
status, output bytes identical to the ledger's output, a release hook
installed, and gas_left equal to the gas field as left by the ledger whenever
that value fits in a signed 64-bit integer, in particular whenever it is at
most the message gas. -/
theorem call_result (ext : ExtVMFace) (msg : evmc_message) (res : CallResult)
    (gasAfter : u256)
    (h1 : msg.kind ≠ EVMC_CREATE) (h2 : msg.kind ≠ EVMC_CREATE2)
    (hledger : ext.ledgerCall (ext.callParameters msg) = (res, gasAfter)) :
    (ext.call msg).2.status_code = res.status
      ∧ (ext.call msg).2.output_data = res.output.data
      ∧ (ext.call msg).2.output_size = res.output.data.length
      ∧ (ext.call msg).2.release = true
      ∧ (gasAfter < 2 ^ 63 → (ext.call msg).2.gas_left = (gasAfter : Int))
      ∧ (msg.gas < 2 ^ 63 → (gasAfter : Int) ≤ msg.gas →
          (ext.call msg).2.gas_left = (gasAfter : Int)) := by
  rw [call_of_not_create ext msg h1 h2, hledger]
  refine ⟨rfl, rfl, rfl, rfl, fun h => ?_, fun h3 h4 => ?_⟩
  · exact int64_of_u256_of_lt gasAfter h
  · have h5 : gasAfter < 2 ^ 63 := by
      have h6 : (gasAfter : Int) < 2 ^ 63 := lt_of_le_of_lt h4 h3
      exact_mod_cast h6
    exact int64_of_u256_of_lt gasAfter h5

/-- The gas 1000 of the sample messages as a 256-bit word. -/
theorem u256_of_int64_sample : u256_of_int64 1000 = 1000 := by
  have h := u256_of_int64_of_nonneg 1000 (by norm_num) (by norm_num)
  exact_mod_cast h

/-- The sample ledger's answer to the sample Call. -/
theorem sampleLedgerFrame_call :
    sampleLedgerFrame.ledgerCall (sampleLedgerFrame.callParameters sampleCall)
      = ({ status := 2, output := sampleCallOutput }, 900) := by
  simp only [sampleLedgerFrame, ExtVMFace.callParameters, sampleCall, u256_of_int64_sample]

/-- Witness for C12: a plain Call with gas 1000 answered with status 2, output
7, 8, 9 (a window of the vector 0, 7, 8, 9, 0) and 900 gas left. -/
theorem call_result_witness :
    (sampleLedgerFrame.call sampleCall).2.status_code = 2
      ∧ (sampleLedgerFrame.call sampleCall).2.output_data = [7, 8, 9]
      ∧ (sampleLedgerFrame.call sampleCall).2.output_size = 3
      ∧ (sampleLedgerFrame.call sampleCall).2.release = true
      ∧ (900 < 2 ^ 63 → (sampleLedgerFrame.call sampleCall).2.gas_left = ((900 : Nat) : Int))
      ∧ (sampleCall.gas < 2 ^ 63 → ((900 : Nat) : Int) ≤ sampleCall.gas →
          (sampleLedgerFrame.call sampleCall).2.gas_left = ((900 : Nat) : Int)) :=
  call_result sampleLedgerFrame sampleCall { status := 2, output := sampleCallOutput } 900
    (by decide) (by decide) sampleLedgerFrame_call

/-- The translator `create` in terms of the request it builds. -/
theorem create_eq (ext : ExtVMFace) (msg : evmc_message) :
    ext.create msg =
      (if (ext.ledgerCreate (ExtVMFace.createParameters msg)).1.status = EVMC_SUCCESS then
        (LedgerRequest.create (ExtVMFace.createParameters msg),
          { evmc_result.zero with
            status_code := (ext.ledgerCreate (ExtVMFace.createParameters msg)).1.status
            gas_left := int64_of_u256 (ext.ledgerCreate (ExtVMFace.createParameters msg)).2
            reserved := ReservedStorage.address
              (ext.ledgerCreate (ExtVMFace.createParameters msg)).1.address })
       else
        (LedgerRequest.create (ExtVMFace.createParameters msg),
          handOff
            { evmc_result.zero with
              status_code := (ext.ledgerCreate (ExtVMFace.createParameters msg)).1.status
              gas_left := int64_of_u256 (ext.ledgerCreate (ExtVMFace.createParameters msg)).2 }
            (ext.ledgerCreate (ExtVMFace.createParameters msg)).1.output)) := by
  rfl

/-- A create-like message is answered through the create path. -/
theorem call_of_create (ext : ExtVMFace) (msg : evmc_message)
    (hkind : msg.kind = EVMC_CREATE ∨ msg.kind = EVMC_CREATE2) :
    ext.call msg = ext.create msg := by
  unfold ExtVMFace.call
  simp only [if_pos hkind]

/-- The request a create-like message puts to the ledger. -/
theorem call_create_fst (ext : ExtVMFace) (msg : evmc_message)
    (hkind : msg.kind = EVMC_CREATE ∨ msg.kind = EVMC_CREATE2) :
    (ext.call msg).1 = LedgerRequest.create (ExtVMFace.createParameters msg) := by
  rw [call_of_create ext msg hkind, create_eq]
  split_ifs <;> rfl

/-- C13 (as amended): for every message of kind Create or Create2, `call` takes
the create path, and whatever the ledger answers, the result has the ledger's
status, and gas_left equal to the gas left by the ledger whenever that value
fits in a signed 64-bit integer, in particular whenever it is at most the
message gas.  On success create_address is the ledger's created address and
there is no output buffer (no output bytes, size 0, no release hook, no
container in the reserved storage), even if the ledger's answer carried output
bytes.  Otherwise the output bytes are identical to the ledger's output, a
release hook is installed, and the reserved storage that `create_address`
shares holds the byte vector moved out of the ledger's answer, so
create_address no longer holds an address and need not read as zero. -/
theorem call_create_result (ext : ExtVMFace) (msg : evmc_message) (res : CreateResult)
    (gasAfter : u256)
    (hkind : msg.kind = EVMC_CREATE ∨ msg.kind = EVMC_CREATE2)
    (hledger : ext.ledgerCreate (ExtVMFace.createParameters msg) = (res, gasAfter)) :
    ext.call msg = ext.create msg
      ∧ (ext.call msg).1 = LedgerRequest.create (ExtVMFace.createParameters msg)
      ∧ (ext.call msg).2.status_code = res.status
      ∧ (gasAfter < 2 ^ 63 → (ext.call msg).2.gas_left = (gasAfter : Int))
      ∧ (msg.gas < 2 ^ 63 → (gasAfter : Int) ≤ msg.gas →
          (ext.call msg).2.gas_left = (gasAfter : Int))
      ∧ (res.status = EVMC_SUCCESS →
          (ext.call msg).2.create_address = some res.address
            ∧ (ext.call msg).2.reserved = ReservedStorage.address res.address
            ∧ (ext.call msg).2.output_data = []
            ∧ (ext.call msg).2.output_size = 0
            ∧ (ext.call msg).2.release = false
            ∧ (ext.call msg).2.optionalStorage = none)
      ∧ (res.status ≠ EVMC_SUCCESS →
          (ext.call msg).2.output_data = res.output.data
            ∧ (ext.call msg).2.output_size = res.output.data.length
            ∧ (ext.call msg).2.release = true
            ∧ (ext.call msg).2.reserved = ReservedStorage.container res.output.takeBytes
            ∧ (ext.call msg).2.optionalStorage = some res.output.takeBytes
            ∧ (ext.call msg).2.create_address = none) := by
  have hfit : gasAfter < 2 ^ 63 → int64_of_u256 gasAfter = (gasAfter : Int) :=
    int64_of_u256_of_lt gasAfter
  have hfit2 : msg.gas < 2 ^ 63 → (gasAfter : Int) ≤ msg.gas →
      int64_of_u256 gasAfter = (gasAfter : Int) := by
    intro h3 h4
    have h6 : (gasAfter : Int) < 2 ^ 63 := lt_of_le_of_lt h4 h3
    exact int64_of_u256_of_lt gasAfter (by exact_mod_cast h6)
  refine ⟨call_of_create ext msg hkind, ?_⟩
  rw [call_of_create ext msg hkind, create_eq, hledger]
  by_cases hs : res.status = EVMC_SUCCESS
  · rw [if_pos hs]
    exact ⟨rfl, rfl, hfit, hfit2, fun _ => ⟨rfl, rfl, rfl, rfl, rfl, rfl⟩,
      fun h => absurd hs h⟩
  · rw [if_neg hs]
    exact ⟨rfl, rfl, hfit, hfit2, fun h => absurd h hs,
      fun _ => ⟨rfl, rfl, rfl, rfl, rfl, rfl⟩⟩

/-- The sample ledger's answer to the sample CREATE. -/
theorem sampleLedgerFrame_create :
    sampleLedgerFrame.ledgerCreate (ExtVMFace.createParameters sampleCreate)
      = ({ status := 0, output := owning_bytes_ref.ofBytes [5] 0 1, address := 123 }, 990) := by
  simp [sampleLedgerFrame, ExtVMFace.createParameters, sampleCreate, u256_of_int64_sample]

/-- The sample ledger's answer to the sample CREATE2. -/
theorem sampleLedgerFrame_create2 :
    sampleLedgerFrame.ledgerCreate (ExtVMFace.createParameters sampleCreate2)
      = ({ status := 2, output := owning_bytes_ref.ofBytes [7, 8] 0 2, address := 0 }, 990) := by
  simp [sampleLedgerFrame, ExtVMFace.createParameters, sampleCreate2, u256_of_int64_sample]

/-- Witness for C13 (as amended): a CREATE answered with success, address 123
and a stray output byte, and a CREATE2 answered with status 2 and output
7, 8. -/
theorem call_create_result_witness :
    ((sampleLedgerFrame.call sampleCreate).2.create_address = some 123
        ∧ (sampleLedgerFrame.call sampleCreate).2.reserved = ReservedStorage.address 123
        ∧ (sampleLedgerFrame.call sampleCreate).2.output_data = []
        ∧ (sampleLedgerFrame.call sampleCreate).2.output_size = 0
        ∧ (sampleLedgerFrame.call sampleCreate).2.release = false
        ∧ (sampleLedgerFrame.call sampleCreate).2.optionalStorage = none)
      ∧ ((sampleLedgerFrame.call sampleCreate2).2.output_data = [7, 8]
        ∧ (sampleLedgerFrame.call sampleCreate2).2.output_size = 2
        ∧ (sampleLedgerFrame.call sampleCreate2).2.release = true
        ∧ (sampleLedgerFrame.call sampleCreate2).2.reserved
            = ReservedStorage.container [7, 8]
        ∧ (sampleLedgerFrame.call sampleCreate2).2.optionalStorage = some [7, 8]
        ∧ (sampleLedgerFrame.call sampleCreate2).2.create_address = none) :=
  ⟨(call_create_result sampleLedgerFrame sampleCreate
      { status := 0, output := owning_bytes_ref.ofBytes [5] 0 1, address := 123 } 990
      (by decide) sampleLedgerFrame_create).2.2.2.2.2.1 rfl,
   (call_create_result sampleLedgerFrame sampleCreate2
      { status := 2, output := owning_bytes_ref.ofBytes [7, 8] 0 2, address := 0 } 990
      (by decide) sampleLedgerFrame_create2).2.2.2.2.2.2 (by decide)⟩

/-- The result of a create whose ledger answer is known. -/
theorem create_of_failure (ext : ExtVMFace) (msg : evmc_message) (res : CreateResult)
    (gasAfter : u256)
    (hledger : ext.ledgerCreate (ExtVMFace.createParameters msg) = (res, gasAfter))
    (hs : res.status ≠ EVMC_SUCCESS) :
    (ext.create msg).2 =
      handOff { evmc_result.zero with
                status_code := res.status, gas_left := int64_of_u256 gasAfter }
        res.output := by
  rw [create_eq, hledger, if_neg hs]

/-- The sample ledger that leaves `2^63` gas, answering the sample CREATE2. -/
theorem sampleGasFrame_create2 :
    sampleGasFrame.ledgerCreate (ExtVMFace.createParameters sampleCreate2)
      = ({ status := 2, output := owning_bytes_ref.ofBytes [7, 8] 0 2, address := 0 },
          2 ^ 63) := by
  simp [sampleGasFrame]

/-- Counterexample to C13 as stated.  A CREATE2 answered with status 2 and
output 7, 8 comes back with the byte vector 7, 8 sitting in the reserved
storage, so the bytes of create_address are not the zero address.  And when the
ledger leaves `2^63` gas, gas_left is `-2^63`, not the gas left by the
ledger. -/
theorem call_create_result_counterexample :
    (sampleCreate2.kind = EVMC_CREATE2
        ∧ (sampleLedgerFrame.call sampleCreate2).2.status_code ≠ EVMC_SUCCESS
        ∧ (sampleLedgerFrame.call sampleCreate2).2.reserved
            = ReservedStorage.container [7, 8]
        ∧ (sampleLedgerFrame.call sampleCreate2).2.reserved ≠ ReservedStorage.address 0
        ∧ (sampleLedgerFrame.call sampleCreate2).2.create_address ≠ some 0)
      ∧ ((sampleGasFrame.ledgerCreate (ExtVMFace.createParameters sampleCreate2)).2 = 2 ^ 63
        ∧ (sampleGasFrame.call sampleCreate2).2.gas_left = -(2 ^ 63)
        ∧ (sampleGasFrame.call sampleCreate2).2.gas_left
            ≠ (((sampleGasFrame.ledgerCreate
                  (ExtVMFace.createParameters sampleCreate2)).2 : Nat) : Int)) := by
  have h1 : (sampleLedgerFrame.call sampleCreate2).2 =
      handOff { evmc_result.zero with
                status_code := 2, gas_left := int64_of_u256 990 }
        (owning_bytes_ref.ofBytes [7, 8] 0 2) := by
    rw [call_of_create sampleLedgerFrame sampleCreate2 (by decide)]
    exact create_of_failure sampleLedgerFrame sampleCreate2 _ _ sampleLedgerFrame_create2
      (by decide)
  have h2 : (sampleGasFrame.call sampleCreate2).2 =
      handOff { evmc_result.zero with
                status_code := 2, gas_left := int64_of_u256 (2 ^ 63) }
        (owning_bytes_ref.ofBytes [7, 8] 0 2) := by
    rw [call_of_create sampleGasFrame sampleCreate2 (by decide)]
    exact create_of_failure sampleGasFrame sampleCreate2 _ _ sampleGasFrame_create2
      (by decide)
  have h3 : int64_of_u256 (2 ^ 63) = -(2 ^ 63) := by
    unfold int64_of_u256
    norm_num
  refine ⟨⟨rfl, ?_, ?_, ?_, ?_⟩, ?_, ?_, ?_⟩
  · rw [h1]; decide
  · rw [h1]; rfl
  · rw [h1]; decide
  · rw [h1]; decide
  · rw [sampleGasFrame_create2]
  · rw [h2]
    exact h3
  · rw [h2, sampleGasFrame_create2]
    show int64_of_u256 (2 ^ 63) ≠ _
    rw [h3]
    norm_num

/-- C17 (as amended): for every create-like message (gas not negative and in
the signed 64-bit range) the request passed to the ledger has value equal to the
message value, gas equal to the message gas, init code equal to the message
input, opcode CREATE exactly when the kind is Create and CREATE2 otherwise, and
salt equal to the create2_salt field of the message for both variants: the
adapter passes the salt on unchanged and does not zero it for CREATE. -/
theorem call_create_request (ext : ExtVMFace) (msg : evmc_message)
    (hkind : msg.kind = EVMC_CREATE ∨ msg.kind = EVMC_CREATE2)
    (hgas : 0 ≤ msg.gas) (hrange : msg.gas < 2 ^ 63) :
    ∃ request : CreateParameters,
      (ext.call msg).1 = LedgerRequest.create request
        ∧ request.value = msg.value
        ∧ ((request.gas : Nat) : Int) = msg.gas
        ∧ request.init = msg.input
        ∧ (request.opcode = Instruction.CREATE ↔ msg.kind = EVMC_CREATE)
        ∧ (msg.kind ≠ EVMC_CREATE → request.opcode = Instruction.CREATE2)
        ∧ request.salt = msg.create2_salt := by
  refine ⟨ExtVMFace.createParameters msg, ?_, rfl, ?_, rfl, ?_, ?_, rfl⟩
  · exact call_create_fst ext msg hkind
  · exact u256_of_int64_of_nonneg msg.gas hgas hrange
  · by_cases h : msg.kind = EVMC_CREATE <;> simp [ExtVMFace.createParameters, h]
  · intro h
    simp [ExtVMFace.createParameters, h]

/-- Witness for C17 (as amended): a CREATE message with value 3, gas 1000, init
code 1, 2 and salt field 5. -/
theorem call_create_request_witness :
    ∃ request : CreateParameters,
      (sampleLedgerFrame.call sampleCreate).1 = LedgerRequest.create request
        ∧ request.value = 3
        ∧ ((request.gas : Nat) : Int) = 1000
        ∧ request.init = [1, 2]
        ∧ (request.opcode = Instruction.CREATE ↔ sampleCreate.kind = EVMC_CREATE)
        ∧ (sampleCreate.kind ≠ EVMC_CREATE → request.opcode = Instruction.CREATE2)
        ∧ request.salt = 5 :=
  call_create_request sampleLedgerFrame sampleCreate (by decide) (by decide) (by decide)

/-- Counterexample to C17 as stated: for a message of kind Create whose
create2_salt field holds 5, the request passed to the ledger has opcode CREATE
and salt 5, not zero. -/
theorem call_create_request_counterexample :
    sampleCreate.kind = EVMC_CREATE
      ∧ sampleCreate.create2_salt = 5
      ∧ (sampleLedgerFrame.call sampleCreate).1
          = LedgerRequest.create (ExtVMFace.createParameters sampleCreate)
      ∧ (ExtVMFace.createParameters sampleCreate).opcode = Instruction.CREATE
      ∧ (ExtVMFace.createParameters sampleCreate).salt = 5
      ∧ (ExtVMFace.createParameters sampleCreate).salt ≠ 0 :=
  ⟨rfl, rfl, call_create_fst sampleLedgerFrame sampleCreate (by decide),
   by decide, by decide, by decide⟩

/-! ## Effects of a storage write -/

/-- The adjustments of one write in closed form. -/
theorem set_storage_adjustments (ext : ExtVMFace) (addr : Address) (key newValue : u256) :
    (ext.set_storage addr key newValue).2.sub.adjustments =
      ext.sub.adjustments ++
        (if newValue = ext.store key then []
         else if ext.originalStorageValue key = ext.store key
              ∨ ext.evmSchedule.eip1283Mode = false then
           (if ext.store key = 0 then []
            else if newValue = 0 then [ext.evmSchedule.sstoreRefundGas] else [])
         else
           (if ext.originalStorageValue key ≠ 0 then
              (if ext.store key = 0 then [-ext.evmSchedule.sstoreRefundGas] else [])
                ++ (if newValue = 0 then [ext.evmSchedule.sstoreRefundGas] else [])
            else [])
           ++ (if ext.originalStorageValue key = newValue then
                [restoreCredit ext.evmSchedule (ext.originalStorageValue key)]
              else [])) := by
  unfold ExtVMFace.set_storage restoreCredit
  simp only []
  split_ifs <;>
    simp [ExtVMFace.setStore, SubState.addRefund, SubState.subRefund]

/-- The calls of `setStore` made by one write, in closed form. -/
theorem set_storage_calls (ext : ExtVMFace) (addr : Address) (key newValue : u256) :
    (ext.set_storage addr key newValue).2.setStoreCalls =
      ext.setStoreCalls ++ (if newValue = ext.store key then [] else [(key, newValue)]) := by
  unfold ExtVMFace.set_storage
  by_cases h : newValue = ext.store key
  · simp only [if_pos h]
    simp
  · simp only [if_neg h]
    simp [ExtVMFace.setStore]

/-- C14 (as amended): `set_storage` performs the ledger write setStore(index,
newValue) exactly when the new value differs from the current one; when the
status is Unchanged it returns before the write and makes no ledger write at
all.  In either case the slot holds newValue after the call. -/
theorem set_storage_ledger_write (ext : ExtVMFace) (addr : Address) (key newValue : u256) :
    (newValue ≠ ext.store key →
        (ext.set_storage addr key newValue).2.setStoreCalls
          = ext.setStoreCalls ++ [(key, newValue)])
      ∧ (newValue = ext.store key →
        (ext.set_storage addr key newValue).1 = EVMC_STORAGE_UNCHANGED
          ∧ (ext.set_storage addr key newValue).2.setStoreCalls = ext.setStoreCalls)
      ∧ (ext.set_storage addr key newValue).2.store key = newValue := by
  refine ⟨fun h => ?_, fun h => ⟨?_, ?_⟩, set_storage_store_same ext addr key newValue⟩
  · rw [set_storage_calls, if_neg h]
  · rw [set_storage_fst_eq, if_pos h]
  · rw [set_storage_calls, if_pos h, List.append_nil]

/-- Counterexample to C14 as stated: with the slot at 5, writing 5 returns
Unchanged and makes no call of setStore. -/
theorem set_storage_ledger_write_counterexample :
    ((sampleFrame true 5 3).set_storage 1 7 5).1 = EVMC_STORAGE_UNCHANGED
      ∧ (sampleFrame true 5 3).setStoreCalls = []
      ∧ ((sampleFrame true 5 3).set_storage 1 7 5).2.setStoreCalls = []
      ∧ ((7, 5) : u256 × u256) ∉ ((sampleFrame true 5 3).set_storage 1 7 5).2.setStoreCalls := by
  decide

/-- C16 (as amended): a single `set_storage` call applies at most two refund
adjustments; it applies at most one on an unchanged or first-touch write, and
it applies two exactly when eip1283Mode is on, the original value is non-zero,
the current value is zero and the new value is the original one (the clearing
refund is taken back and the restore credit is added). -/
theorem set_storage_adjustment_count (ext : ExtVMFace) (addr : Address)
    (key newValue : u256) :
    (ext.set_storage addr key newValue).2.sub.adjustments
        = ext.sub.adjustments ++ appliedAdjustments ext addr key newValue
      ∧ (appliedAdjustments ext addr key newValue).length ≤ 2
      ∧ ((newValue = ext.store key ∨ ext.originalStorageValue key = ext.store key
            ∨ ext.evmSchedule.eip1283Mode = false) →
          (appliedAdjustments ext addr key newValue).length ≤ 1)
      ∧ ((appliedAdjustments ext addr key newValue).length = 2 ↔
          (ext.evmSchedule.eip1283Mode = true ∧ ext.originalStorageValue key ≠ 0
            ∧ ext.store key = 0 ∧ newValue = ext.originalStorageValue key)) := by
  have happ : appliedAdjustments ext addr key newValue =
      (if newValue = ext.store key then []
         else if ext.originalStorageValue key = ext.store key
              ∨ ext.evmSchedule.eip1283Mode = false then
           (if ext.store key = 0 then []
            else if newValue = 0 then [ext.evmSchedule.sstoreRefundGas] else [])
         else
           (if ext.originalStorageValue key ≠ 0 then
              (if ext.store key = 0 then [-ext.evmSchedule.sstoreRefundGas] else [])
                ++ (if newValue = 0 then [ext.evmSchedule.sstoreRefundGas] else [])
            else [])
           ++ (if ext.originalStorageValue key = newValue then
                [restoreCredit ext.evmSchedule (ext.originalStorageValue key)]
              else [])) := by
    unfold appliedAdjustments
    rw [set_storage_adjustments, List.drop_left]
  refine ⟨?_, ?_, ?_, ?_⟩
  · rw [happ, set_storage_adjustments]
  · rw [happ]
    split_ifs <;> simp_all
  · rw [happ]
    rintro (h | h | h) <;> split_ifs <;> simp_all
  · rw [happ]
    cases hm : ext.evmSchedule.eip1283Mode <;> split_ifs <;> simp_all <;>
      (intros; exact fun h => absurd h.symm (by assumption))

/-- Counterexample to C16 as stated: with metering on, original 3 and the slot
at 0, writing 3 applies two adjustments, -15000 and then +4800. -/
theorem set_storage_adjustment_count_counterexample :
    appliedAdjustments (sampleFrame true 0 3) 1 7 3 = [-15000, 4800]
      ∧ ((sampleFrame true 0 3).set_storage 1 7 3).2.sub.adjustments = [-15000, 4800]
      ∧ ¬ ((appliedAdjustments (sampleFrame true 0 3) 1 7 3).length ≤ 1) := by
  decide

/-- C19: after `set_storage` with key index and value newValue the slot index
holds newValue (so `get_storage` of the same key returns newValue), every other
slot holds its previous value, and the frame's address, schedule,
transaction-original values, code and nested ledger operations are as before;
only the substate with the refund counter may differ. -/
theorem set_storage_frame (ext : ExtVMFace) (addr : Address) (key newValue : u256) :
    (ext.set_storage addr key newValue).2.store key = newValue
      ∧ (ext.set_storage addr key newValue).2.get_storage addr key = newValue
      ∧ (∀ k : u256, k ≠ key → (ext.set_storage addr key newValue).2.store k = ext.store k)
      ∧ (ext.set_storage addr key newValue).2.myAddress = ext.myAddress
      ∧ (ext.set_storage addr key newValue).2.schedule = ext.schedule
      ∧ (ext.set_storage addr key newValue).2.originalStorage = ext.originalStorage
      ∧ (ext.set_storage addr key newValue).2.code = ext.code
      ∧ (ext.set_storage addr key newValue).2.ledgerCall = ext.ledgerCall
      ∧ (ext.set_storage addr key newValue).2.ledgerCreate = ext.ledgerCreate := by
  refine ⟨set_storage_store_same ext addr key newValue,
    set_storage_store_same ext addr key newValue, ?_, ?_, ?_, ?_, ?_, ?_, ?_⟩
  · intro k hk
    unfold ExtVMFace.set_storage
    by_cases h : newValue = ext.store key
    · simp only [if_pos h]
    · simp only [if_neg h]
      simp [ExtVMFace.setStore, ExtVMFace.store, hk]
  all_goals
    unfold ExtVMFace.set_storage
    by_cases h : newValue = ext.store key
    · simp only [if_pos h]
    · simp only [if_neg h]
      rfl

/-! ## The running total of refunds over a sequence of writes -/

/-- The adjustments applied by one write, in closed form. -/
theorem appliedAdjustments_eq (ext : ExtVMFace) (addr : Address) (key newValue : u256) :
    appliedAdjustments ext addr key newValue =
      (if newValue = ext.store key then []
         else if ext.originalStorageValue key = ext.store key
              ∨ ext.evmSchedule.eip1283Mode = false then
           (if ext.store key = 0 then []
            else if newValue = 0 then [ext.evmSchedule.sstoreRefundGas] else [])
         else
           (if ext.originalStorageValue key ≠ 0 then
              (if ext.store key = 0 then [-ext.evmSchedule.sstoreRefundGas] else [])
                ++ (if newValue = 0 then [ext.evmSchedule.sstoreRefundGas] else [])
            else [])
           ++ (if ext.originalStorageValue key = newValue then
                [restoreCredit ext.evmSchedule (ext.originalStorageValue key)]
              else [])) := by
  unfold appliedAdjustments
  rw [set_storage_adjustments, List.drop_left]

/-- A sequence of writes leaves the schedule as it was. -/
theorem writeAll_schedule (addr : Address) (key : u256) (vs : List u256) :
    ∀ ext : ExtVMFace, (writeAll ext addr key vs).evmSchedule = ext.evmSchedule := by
  induction vs with
  | nil => intro ext; rfl
  | cons v vs ih => intro ext; rw [writeAll, ih, set_storage_schedule]

/-- A sequence of writes leaves the transaction-original values as they were. -/
theorem writeAll_original (addr : Address) (key k : u256) (vs : List u256) :
    ∀ ext : ExtVMFace,
      (writeAll ext addr key vs).originalStorageValue k = ext.originalStorageValue k := by
  induction vs with
  | nil => intro ext; rfl
  | cons v vs ih => intro ext; rw [writeAll, ih, set_storage_original]

/-- The refund counter after a sequence of writes is the counter before it plus
the sum of the deltas. -/
theorem writeAll_refunds (addr : Address) (key : u256) (vs : List u256) :
    ∀ ext : ExtVMFace,
      (writeAll ext addr key vs).sub.refunds = ext.sub.refunds + deltaSum ext addr key vs := by
  induction vs with
  | nil => intro ext; simp [writeAll, deltaSum]
  | cons v vs ih =>
    intro ext
    rw [writeAll, ih, deltaSum, ExtVMFace.refundDelta]
    ring

/-- Writing two sequences one after the other. -/
theorem writeAll_append (addr : Address) (key : u256) (us vs : List u256) :
    ∀ ext : ExtVMFace,
      writeAll ext addr key (us ++ vs) = writeAll (writeAll ext addr key us) addr key vs := by
  induction us with
  | nil => intro ext; rfl
  | cons u us ih => intro ext; rw [List.cons_append, writeAll, ih, writeAll]

/-- After a non-empty sequence of writes the slot holds the last value
written. -/
theorem writeAll_store_last (ext : ExtVMFace) (addr : Address) (key v : u256)
    (us : List u256) :
    (writeAll ext addr key (us ++ [v])).store key = v := by
  rw [writeAll_append, writeAll, writeAll, set_storage_store_same]

/-- With metering off every delta is zero or the clearing refund, so the sum of
the deltas of a sequence is not negative. -/
theorem deltaSum_nonneg_of_legacy (addr : Address) (key : u256) (vs : List u256) :
    ∀ ext : ExtVMFace, ext.evmSchedule.eip1283Mode = false →
      0 ≤ ext.evmSchedule.sstoreRefundGas → 0 ≤ deltaSum ext addr key vs := by
  induction vs with
  | nil => intro ext _ _; simp [deltaSum]
  | cons v vs ih =>
    intro ext hmode hRG
    have h1 : 0 ≤ ext.refundDelta addr key v := by
      rw [refundDelta_eq]
      simp only [hmode, or_true, if_true]
      split_ifs <;> first | exact le_refl _ | exact hRG
    have h2 : 0 ≤ deltaSum (ext.set_storage addr key v).2 addr key vs :=
      ih _ (by rw [set_storage_schedule]; exact hmode)
        (by rw [set_storage_schedule]; exact hRG)
    rw [deltaSum]
    exact add_nonneg h1 h2

/-- With metering on, starting from an untouched slot, the sum of the deltas of
a sequence is not negative. -/
theorem deltaSum_nonneg_of_metered (ext : ExtVMFace) (addr : Address) (key : u256)
    (vs : List u256)
    (hmode : ext.evmSchedule.eip1283Mode = true)
    (hRG : 0 ≤ ext.evmSchedule.sstoreRefundGas)
    (hRNG : 0 ≤ ext.evmSchedule.sstoreRefundNonzeroGas)
    (hstart : ext.store key = ext.originalStorageValue key) :
    0 ≤ deltaSum ext addr key vs := by
  rw [deltaSum_eq addr key vs ext hmode, hstart]
  have h1 : 0 ≤ clearingRefund ext.evmSchedule (ext.originalStorageValue key)
      (vs.getLastD (ext.originalStorageValue key)) := by
    unfold clearingRefund
    split_ifs
    · exact hRG
    · exact le_refl _
  have h2 : clearingRefund ext.evmSchedule (ext.originalStorageValue key)
      (ext.originalStorageValue key) = 0 := by
    unfold clearingRefund
    rw [if_neg]
    rintro ⟨ha, hb⟩
    exact ha hb
  have h3 : 0 ≤ restoreCredit ext.evmSchedule (ext.originalStorageValue key) := by
    unfold restoreCredit
    split_ifs
    · exact add_nonneg hRG hRNG
    · exact hRNG
  have h4 : 0 ≤ (restoreCount (ext.originalStorageValue key) (ext.originalStorageValue key) vs
      : Int) * restoreCredit ext.evmSchedule (ext.originalStorageValue key) :=
    mul_nonneg (Int.ofNat_nonneg _) h3
  rw [h2]
  linarith

/-- A write of zero to a non-zero slot whose original value is non-zero is
credited the clearing refund (source line 65 or line 76). -/
theorem clearing_credited (ext : ExtVMFace) (addr : Address) (key : u256)
    (hcur : ext.store key ≠ 0) (horig : ext.originalStorageValue key ≠ 0) :
    ext.evmSchedule.sstoreRefundGas ∈ appliedAdjustments ext addr key 0 := by
  have hne : ¬ (0 : u256) = ext.store key := fun h => hcur h.symm
  rw [appliedAdjustments_eq]
  simp only [if_neg hne, if_neg hcur, if_pos horig]
  split_ifs <;> simp

/-- When source line 74 is reached, the first adjustment the write applies is
the clearing refund taken back. -/
theorem takesBack_applied (ext : ExtVMFace) (addr : Address) (key newValue : u256)
    (h : takesBackClearingRefund ext key newValue) :
    ∃ rest : List Int,
      appliedAdjustments ext addr key newValue = -ext.evmSchedule.sstoreRefundGas :: rest := by
  obtain ⟨h1, h2, h3, h4⟩ := h
  rw [appliedAdjustments_eq]
  simp only [if_neg h1, if_neg h2, if_pos h3, if_pos h4]
  exact ⟨_, by simp only [List.singleton_append, List.cons_append, List.nil_append]; rfl⟩

/-- With refund constants that are not negative, a negative adjustment can only
be the clearing refund taken back at source line 74. -/
theorem negative_adjustment (ext : ExtVMFace) (addr : Address) (key newValue : u256)
    (hRG : 0 ≤ ext.evmSchedule.sstoreRefundGas)
    (hRNG : 0 ≤ ext.evmSchedule.sstoreRefundNonzeroGas)
    (x : Int) (hx : x ∈ appliedAdjustments ext addr key newValue) (hneg : x < 0) :
    x = -ext.evmSchedule.sstoreRefundGas ∧ takesBackClearingRefund ext key newValue := by
  have hcredit : 0 ≤ restoreCredit ext.evmSchedule (ext.originalStorageValue key) := by
    unfold restoreCredit
    split_ifs
    · exact add_nonneg hRG hRNG
    · exact hRNG
  rw [appliedAdjustments_eq] at hx
  unfold takesBackClearingRefund
  by_cases h1 : newValue = ext.store key
  · simp [h1] at hx
  · simp only [if_neg h1] at hx
    by_cases h2 : ext.originalStorageValue key = ext.store key
        ∨ ext.evmSchedule.eip1283Mode = false
    · simp only [if_pos h2] at hx
      split_ifs at hx <;> simp at hx
      omega
    · simp only [if_neg h2] at hx
      by_cases h3 : ext.originalStorageValue key ≠ 0
      · simp only [if_pos h3] at hx
        by_cases h4 : ext.store key = 0
        · simp only [if_pos h4, List.mem_append, List.mem_singleton] at hx
          rcases hx with (hx | hx) | hx
          · exact ⟨hx, h1, h2, h3, h4⟩
          · split_ifs at hx <;> simp at hx
            omega
          · split_ifs at hx <;> simp at hx
            omega
        · simp only [if_neg h4, List.mem_append, List.nil_append] at hx
          rcases hx with hx | hx
          · split_ifs at hx <;> simp at hx
            omega
          · split_ifs at hx <;> simp at hx
            omega
      · simp only [if_neg h3, List.nil_append] at hx
        split_ifs at hx <;> simp at hx
        omega

/-- If the slot of a non-zero original value holds zero after a sequence of
writes that started from the original value, some write of the sequence zeroed
the slot from a non-zero value and was credited the clearing refund. -/
theorem credited_before_zero (ext : ExtVMFace) (addr : Address) (key : u256)
    (hstart : ext.store key = ext.originalStorageValue key)
    (horig : ext.originalStorageValue key ≠ 0) (pre : List u256) :
    (writeAll ext addr key pre).store key = 0 →
      ∃ pre1 pre2 : List u256,
        pre = pre1 ++ 0 :: pre2
          ∧ (writeAll ext addr key pre1).store key ≠ 0
          ∧ ext.evmSchedule.sstoreRefundGas
              ∈ appliedAdjustments (writeAll ext addr key pre1) addr key 0 := by
  induction pre using List.reverseRecOn with
  | nil =>
    intro h
    exact absurd (hstart.symm.trans h) horig
  | append_singleton us v ih =>
    intro h
    rw [writeAll_store_last] at h
    subst h
    by_cases hc : (writeAll ext addr key us).store key = 0
    · obtain ⟨pre1, pre2, h1, h2, h3⟩ := ih hc
      exact ⟨pre1, pre2 ++ [0], by rw [h1]; simp, h2, h3⟩
    · refine ⟨us, [], rfl, hc, ?_⟩
      have h4 := clearing_credited (writeAll ext addr key us) addr key hc
        (by rw [writeAll_original]; exact horig)
      rw [writeAll_schedule] at h4
      exact h4

/-- C18: with refund constants that are not negative, in either metering mode,
for every original value o and every finite sequence of writes to one slot
whose current value starts at o with the refund counter at 0, the running sum
of the refund deltas, and with it the refund counter, is not negative after
every write.  Whenever a write takes the clearing refund back (source line
74, the only place a negative adjustment can come from), an earlier write of
the sequence zeroed the slot from a non-zero value and was credited the
clearing refund. -/
theorem refund_running_total (ext : ExtVMFace) (addr : Address) (key o : u256)
    (vs : List u256)
    (hRG : 0 ≤ ext.evmSchedule.sstoreRefundGas)
    (hRNG : 0 ≤ ext.evmSchedule.sstoreRefundNonzeroGas)
    (hcur : ext.store key = o)
    (horig : ext.originalStorageValue key = o)
    (hzero : ext.sub.refunds = 0) :
    (∀ n : Nat,
        0 ≤ deltaSum ext addr key (vs.take n)
          ∧ 0 ≤ (writeAll ext addr key (vs.take n)).sub.refunds)
      ∧ (∀ (pre : List u256) (v : u256) (post : List u256), vs = pre ++ v :: post →
          takesBackClearingRefund (writeAll ext addr key pre) key v →
            (∃ rest : List Int,
              appliedAdjustments (writeAll ext addr key pre) addr key v
                = -ext.evmSchedule.sstoreRefundGas :: rest)
            ∧ ∃ pre1 pre2 : List u256,
                pre = pre1 ++ 0 :: pre2
                  ∧ (writeAll ext addr key pre1).store key ≠ 0
                  ∧ ext.evmSchedule.sstoreRefundGas
                      ∈ appliedAdjustments (writeAll ext addr key pre1) addr key 0)
      ∧ (∀ (pre : List u256) (v : u256) (post : List u256), vs = pre ++ v :: post →
          ∀ x ∈ appliedAdjustments (writeAll ext addr key pre) addr key v, x < 0 →
            x = -ext.evmSchedule.sstoreRefundGas
              ∧ takesBackClearingRefund (writeAll ext addr key pre) key v) := by
  have hstart : ext.store key = ext.originalStorageValue key := hcur.trans horig.symm
  have hsum : ∀ ws : List u256, 0 ≤ deltaSum ext addr key ws := by
    intro ws
    cases hm : ext.evmSchedule.eip1283Mode
    · exact deltaSum_nonneg_of_legacy addr key ws ext hm hRG
    · exact deltaSum_nonneg_of_metered ext addr key ws hm hRG hRNG hstart
  refine ⟨fun n => ⟨hsum _, ?_⟩, ?_, ?_⟩
  · rw [writeAll_refunds, hzero, zero_add]
    exact hsum _
  · intro pre v post _ htb
    have happ := takesBack_applied (writeAll ext addr key pre) addr key v htb
    rw [writeAll_schedule] at happ
    refine ⟨happ, ?_⟩
    obtain ⟨_, _, h3, h4⟩ := htb
    rw [writeAll_original] at h3
    exact credited_before_zero ext addr key hstart h3 pre h4
  · intro pre v post _ x hx hneg
    have h := negative_adjustment (writeAll ext addr key pre) addr key v
      (by rw [writeAll_schedule]; exact hRG) (by rw [writeAll_schedule]; exact hRNG)
      x hx hneg
    rw [writeAll_schedule] at h
    exact h

/-- Witness for C18: metering on, original 3, writes 0, 5, 3: the deltas are
+15000, -15000 and +4800; the running sum after two writes is not negative, and
the write of 5 that takes the refund back comes after the write of 0 that was
credited it. -/
theorem refund_running_total_witness :
    (0 ≤ deltaSum (sampleFrame true 3 3) 1 7 (([0, 5, 3] : List u256).take 2)
        ∧ 0 ≤ (writeAll (sampleFrame true 3 3) 1 7 (([0, 5, 3] : List u256).take 2)).sub.refunds)
      ∧ ((∃ rest : List Int,
            appliedAdjustments (writeAll (sampleFrame true 3 3) 1 7 [0]) 1 7 5
              = -(sampleFrame true 3 3).evmSchedule.sstoreRefundGas :: rest)
          ∧ ∃ pre1 pre2 : List u256,
              ([0] : List u256) = pre1 ++ 0 :: pre2
                ∧ (writeAll (sampleFrame true 3 3) 1 7 pre1).store 7 ≠ 0
                ∧ (sampleFrame true 3 3).evmSchedule.sstoreRefundGas
                    ∈ appliedAdjustments (writeAll (sampleFrame true 3 3) 1 7 pre1) 1 7 0) :=
  ⟨(refund_running_total (sampleFrame true 3 3) 1 7 3 [0, 5, 3] (by decide) (by decide)
      rfl rfl rfl).1 2,
   (refund_running_total (sampleFrame true 3 3) 1 7 3 [0, 5, 3] (by decide) (by decide)
      rfl rfl rfl).2.1 [0] 5 [3] rfl (by unfold takesBackClearingRefund; decide)⟩
